import Mathlib

/-!
Verification development for the grappler mutable-graph-view mutation layer
and the poplar fuse-ops pattern library.

The mutation layer (`MutableGraphView`) is embedded as a functional state
model over lists of node definitions.  The fuse-ops pattern table is embedded
verbatim from `fuse_ops.cc`.
-/

namespace GraphSpec

/-- A tensor reference: producer node name and output port.
Port `-1` is the distinguished control slot (`Graph::kControlSlot`);
ports `≥ 0` are regular output ports; ports `< -1` are malformed. -/
structure TensorId where
  node : String
  port : Int
deriving DecidableEq, Repr

/-- The control slot sentinel (`Graph::kControlSlot = -1`). -/
def controlSlot : Int := -1

/-- A reference is a control reference when its port is the control slot. -/
def TensorId.isControl (t : TensorId) : Bool := t.port == controlSlot

/-- A reference is a regular tensor id when its port is non-negative. -/
def TensorId.isRegular (t : TensorId) : Bool := 0 ≤ t.port

/-- A reference is a valid tensor id when its port is at least `-1`. -/
def TensorId.isValid (t : TensorId) : Bool := -1 ≤ t.port

/-- A graph node: unique name, operation kind, device tag and the ordered
input list (regular inputs first, then control inputs). -/
structure NodeDef where
  name : String
  op : String
  device : String
  inputs : List TensorId
deriving DecidableEq, Repr

/-- Regular (data) inputs of a node, in order. -/
def NodeDef.regularInputs (n : NodeDef) : List TensorId :=
  n.inputs.filter fun t => 0 ≤ t.port

/-- Controlling inputs of a node. -/
def NodeDef.controllingInputs (n : NodeDef) : List TensorId :=
  n.inputs.filter fun t => t.isControl

/-- Modelled from the spec: the graph state of `MutableGraphView`
(`tensorflow/core/grappler/mutable_graph_view.cc` is not in the source
excerpt; only its test file is).  The graph owns an ordered list of nodes;
insertion order is preserved. -/
structure MutableGraphView where
  nodes : List NodeDef
deriving DecidableEq, Repr

/-- `get_node`: O(1) (here: first-match) lookup by name; absence is `none`. -/
def getNode (g : MutableGraphView) (name : String) : Option NodeDef :=
  g.nodes.find? fun n => n.name == name

def nodeExists (g : MutableGraphView) (name : String) : Bool :=
  (getNode g name).isSome

/-- Rewrite the inputs of every node called `name` (names are unique in a
well-formed graph) leaving all other fields and nodes untouched. -/
def mapNodeInputs (g : MutableGraphView) (name : String)
    (f : NodeDef → List TensorId) : MutableGraphView :=
  ⟨g.nodes.map fun n => if n.name == name then { n with inputs := f n } else n⟩

/-- The error taxonomy of the mutation layer. -/
inductive GraphError where
  | invalidTensorId (fanin : TensorId)
  | notFound (name : String)
  | selfReference (name : String)
  | switchControlDependency (name : String)
  | retainedFanouts (names : List String)
  | duplicateName (name : String)
  | nonEmptyAuxiliaryLibrary
deriving DecidableEq, Repr

instance {ε α : Type} [DecidableEq ε] [DecidableEq α] :
    DecidableEq (Except ε α) := fun x y =>
  match x, y with
  | .ok a, .ok b =>
    if h : a = b then isTrue (h ▸ rfl)
    else isFalse fun hc => h (by injection hc)
  | .error a, .error b =>
    if h : a = b then isTrue (h ▸ rfl)
    else isFalse fun hc => h (by injection hc)
  | .ok _, .error _ => isFalse fun hc => Except.noConfusion hc
  | .error _, .ok _ => isFalse fun hc => Except.noConfusion hc

/-- Branch-construct test: the operation kind of conditional dispatch. -/
def isSwitchOp (n : NodeDef) : Bool := n.op == "Switch"

/-- Pass-through operation kind. -/
def isIdentityOp (n : NodeDef) : Bool := n.op == "Identity"

/-- A pass-through node tied to a branch construct: an Identity whose first
input is a regular output of a Switch node. -/
def isIdentityConsumingSwitch (g : MutableGraphView) (n : NodeDef) : Bool :=
  isIdentityOp n &&
    (match n.inputs.head? with
     | some t =>
       !t.isControl &&
         (match getNode g t.node with
          | some m => isSwitchOp m
          | none => false)
     | none => false)

/-- Modelled from the spec: controlling inputs are deduplicated against
regular inputs unless the producer is tied to a branch construct. -/
def canDedupControlWithRegularInput (g : MutableGraphView)
    (producer : String) : Bool :=
  match getNode g producer with
  | some p => !(isIdentityConsumingSwitch g p)
  | none => false

/-- Append a regular input as the last regular input, before any controls. -/
def NodeDef.addRegularInput (n : NodeDef) (t : TensorId) : NodeDef :=
  { n with inputs := n.regularInputs ++ [t] ++ n.controllingInputs }

/-- Append a control input at the very end of the input list. -/
def NodeDef.addControllingInput (n : NodeDef) (producer : String) : NodeDef :=
  { n with inputs := n.inputs ++ [⟨producer, controlSlot⟩] }

/-- Drop every control input on `producer`. -/
def NodeDef.eraseControllingInput (n : NodeDef) (producer : String) : NodeDef :=
  { n with inputs := n.inputs.filter fun t => !(t.isControl && t.node == producer) }

/-- Input list after appending a regular fanin: the fanin becomes the last
regular input; a control input on the same producer is absorbed when
deduplication applies. -/
def regularInsertInputs (g : MutableGraphView) (fanin : TensorId)
    (n : NodeDef) : List TensorId :=
  if canDedupControlWithRegularInput g fanin.node then
    ((n.addRegularInput fanin).eraseControllingInput fanin.node).inputs
  else (n.addRegularInput fanin).inputs

/-- Modelled from the spec: `MutableGraphView::AddRegularFanin`.  Appends a
new ordered data input as the last regular input; a control input on the same
producer is absorbed when deduplication applies. -/
def addRegularFanin (g : MutableGraphView) (nodeName : String)
    (fanin : TensorId) : Except GraphError MutableGraphView :=
  if !fanin.isRegular then .error (.invalidTensorId fanin)
  else if !nodeExists g nodeName then .error (.notFound nodeName)
  else if !nodeExists g fanin.node then .error (.notFound fanin.node)
  else if fanin.node == nodeName then .error (.selfReference nodeName)
  else .ok (mapNodeInputs g nodeName (regularInsertInputs g fanin))

/-- Modelled from the spec: `MutableGraphView::RemoveRegularFanin`.  Removes
every matching regular input occurrence; removing an absent fanin is a
successful no-op. -/
def removeRegularFanin (g : MutableGraphView) (nodeName : String)
    (fanin : TensorId) : Except GraphError MutableGraphView :=
  if !fanin.isRegular then .error (.invalidTensorId fanin)
  else if !nodeExists g nodeName then .error (.notFound nodeName)
  else if !nodeExists g fanin.node then .error (.notFound fanin.node)
  else if fanin.node == nodeName then .error (.selfReference nodeName)
  else
    .ok (mapNodeInputs g nodeName fun n => n.inputs.filter fun t => t != fanin)

/-- Modelled from the spec: `MutableGraphView::RemoveAllFanins`. -/
def removeAllFanins (g : MutableGraphView) (nodeName : String)
    (keepControlling : Bool) : Except GraphError MutableGraphView :=
  if !nodeExists g nodeName then .error (.notFound nodeName)
  else
    .ok (mapNodeInputs g nodeName fun n =>
      if keepControlling then n.controllingInputs else [])

/-- Input list after adding a control dependency on `producer`, skipping the
insertion when the dependency is already present or is absorbed by an
existing regular input from a deduplicatable producer. -/
def controlInsertInputs (g : MutableGraphView) (producer : String)
    (n : NodeDef) : List TensorId :=
  if n.controllingInputs.any fun t => t.node == producer then n.inputs
  else if (n.regularInputs.any fun t => t.node == producer) &&
      canDedupControlWithRegularInput g producer then n.inputs
  else (n.addControllingInput producer).inputs

/-- Add a control dependency on `producer` to node `nodeName` with the usual
deduplication against regular inputs. -/
def addControllingToNode (g : MutableGraphView) (nodeName producer : String) :
    MutableGraphView :=
  mapNodeInputs g nodeName (controlInsertInputs g producer)

/-- Input list after adding a control dependency on a pass-through node tied
to a branch construct: such dependencies are never deduplicated against
regular inputs, only repeated control edges are skipped. -/
def controlDependOnInputs (producer : String) (n : NodeDef) : List TensorId :=
  if n.controllingInputs.any fun t => t.node == producer then n.inputs
  else (n.addControllingInput producer).inputs

/-- Record the (branch-construct) control dependency on `producer`. -/
def dependOnNode (g : MutableGraphView) (nodeName producer : String) :
    MutableGraphView :=
  mapNodeInputs g nodeName (controlDependOnInputs producer)

/-- Deterministic generated name for the pass-through node pinning a control
dependency on a Switch output port. -/
def switchIdentityName (switchName : String) (port : Int) : String :=
  "ConstantFoldingCtrl/" ++ switchName ++ "_" ++ toString port

/-- First pass-through node reading exactly the given output port, in graph
order (the earliest-inserted candidate, the deterministic tie-break). -/
def findIdentityConsumer (g : MutableGraphView) (fanin : TensorId) :
    Option String :=
  (g.nodes.find? fun m => isIdentityOp m && m.inputs.head? == some fanin).map
    (·.name)

/-- Modelled from the spec: `MutableGraphView::AddControllingFanin`.  A
control dependency may not land on a Switch directly; for a Switch output
port the dependency is rerouted through an existing or freshly created
pass-through Identity node with a deterministic generated name. -/
def addControllingFanin (g : MutableGraphView) (nodeName : String)
    (fanin : TensorId) : Except GraphError MutableGraphView :=
  if !fanin.isValid then .error (.invalidTensorId fanin)
  else if !nodeExists g nodeName then .error (.notFound nodeName)
  else
    match getNode g fanin.node with
    | none => .error (.notFound fanin.node)
    | some producer =>
      if fanin.isControl then
        if isSwitchOp producer then .error (.switchControlDependency fanin.node)
        else if fanin.node == nodeName then .error (.selfReference nodeName)
        else .ok (addControllingToNode g nodeName fanin.node)
      else if !isSwitchOp producer then
        if fanin.node == nodeName then .error (.selfReference nodeName)
        else .ok (addControllingToNode g nodeName fanin.node)
      else
        match findIdentityConsumer g fanin with
        | some idName =>
          if idName == nodeName then .error (.selfReference nodeName)
          else .ok (dependOnNode g nodeName idName)
        | none =>
          if switchIdentityName fanin.node fanin.port == nodeName then
            .error (.selfReference nodeName)
          else
            match getNode g (switchIdentityName fanin.node fanin.port) with
            | some _ =>
              .ok (dependOnNode g nodeName
                (switchIdentityName fanin.node fanin.port))
            | none =>
              .ok (dependOnNode
                ⟨g.nodes ++ [⟨switchIdentityName fanin.node fanin.port,
                  "Identity", producer.device, [fanin]⟩]⟩
                nodeName (switchIdentityName fanin.node fanin.port))

/-- Modelled from the spec: `MutableGraphView::RemoveControllingFanin`.
Idempotent set-removal; removing an absent controlling fanin is a successful
no-op, except that a self-referential removal is rejected. -/
def removeControllingFanin (g : MutableGraphView) (nodeName : String)
    (faninName : String) : Except GraphError MutableGraphView :=
  if !nodeExists g nodeName then .error (.notFound nodeName)
  else if faninName == nodeName then .error (.selfReference nodeName)
  else .ok (mapNodeInputs g nodeName fun n =>
    (n.eraseControllingInput faninName).inputs)

/-- Replace one occurrence set of a fanin reference inside a node, per the
regular/control cases of `UpdateFanin`. -/
def applyFaninUpdate (g : MutableGraphView) (n : NodeDef)
    (fromF toF : TensorId) : List TensorId :=
  if !(n.inputs.contains fromF) then n.inputs
  else if !fromF.isControl && !toF.isControl then
    let n1 : NodeDef :=
      { n with inputs := n.inputs.map fun t => if t == fromF then toF else t }
    if canDedupControlWithRegularInput g toF.node then
      (n1.eraseControllingInput toF.node).inputs
    else n1.inputs
  else if fromF.isControl && !toF.isControl then
    let n1 : NodeDef := { n with inputs := n.inputs.filter fun t => t != fromF }
    regularInsertInputs g toF n1
  else
    let n1 : NodeDef := { n with inputs := n.inputs.filter fun t => t != fromF }
    controlInsertInputs g toF.node n1

/-- Modelled from the spec: `MutableGraphView::UpdateFanin`.  Atomic
replace-in-place of one input reference by another; position is preserved for
regular-to-regular updates, control targets are appended; branch-construct
legality and deduplication re-run after substitution. -/
def updateFanin (g : MutableGraphView) (nodeName : String)
    (fromF toF : TensorId) : Except GraphError MutableGraphView :=
  if !fromF.isValid then .error (.invalidTensorId fromF)
  else if !toF.isValid then .error (.invalidTensorId toF)
  else if !nodeExists g nodeName then .error (.notFound nodeName)
  else if fromF.node == nodeName || toF.node == nodeName then
    .error (.selfReference nodeName)
  else if !nodeExists g fromF.node then .error (.notFound fromF.node)
  else if !nodeExists g toF.node then .error (.notFound toF.node)
  else if toF.isControl &&
      (match getNode g toF.node with
       | some m => isSwitchOp m
       | none => false) then
    .error (.switchControlDependency toF.node)
  else if fromF == toF then .ok g
  else .ok (mapNodeInputs g nodeName fun n => applyFaninUpdate g n fromF toF)

/-- Modelled from the spec: `MutableGraphView::AddNode`; fails with
`DuplicateNameError` when the name already exists. -/
def addNode (g : MutableGraphView) (n : NodeDef) :
    Except GraphError MutableGraphView :=
  if nodeExists g n.name then .error (.duplicateName n.name)
  else .ok ⟨g.nodes ++ [n]⟩

/-- A subgraph to bulk-insert: new nodes plus an attached auxiliary library
of reusable sub-definitions (function names). -/
structure Subgraph where
  nodes : List NodeDef
  functionLibrary : List String
deriving DecidableEq, Repr

/-- Modelled from the spec: `MutableGraphView::AddSubgraph`.  Rejects a
non-empty auxiliary function library and any name collision. -/
def addSubgraph (g : MutableGraphView) (s : Subgraph) :
    Except GraphError MutableGraphView :=
  if !s.functionLibrary.isEmpty then .error .nonEmptyAuxiliaryLibrary
  else if ((g.nodes ++ s.nodes).map NodeDef.name).Nodup then
    .ok ⟨g.nodes ++ s.nodes⟩
  else .error (.duplicateName "")

/-- The names from the deletion set that are still referenced (regular or
control) by a node outside the deletion set. -/
def deleteNodesOffending (g : MutableGraphView) (names : List String) :
    List String :=
  names.filter fun d =>
    g.nodes.any fun n =>
      !(names.contains n.name) && (n.inputs.any fun t => t.node == d)

/-- Modelled from the spec: `MutableGraphView::DeleteNodes`.  All-or-nothing
removal: fails with `RetainedFanoutError` naming the offending nodes when any
node outside the deletion set references a node inside it. -/
def deleteNodes (g : MutableGraphView) (names : List String) :
    Except GraphError MutableGraphView :=
  if deleteNodesOffending g names = [] then
    .ok ⟨g.nodes.filter fun n => !(names.contains n.name)⟩
  else .error (.retainedFanouts (deleteNodesOffending g names))

/-- One mutation-layer call. -/
inductive MutationCall where
  | addRegularFanin (node : String) (fanin : TensorId)
  | removeRegularFanin (node : String) (fanin : TensorId)
  | removeAllFanins (node : String) (keepControlling : Bool)
  | addControllingFanin (node : String) (fanin : TensorId)
  | removeControllingFanin (node : String) (fanin : String)
  | updateFanin (node : String) (fromF toF : TensorId)
  | addNode (n : NodeDef)
  | addSubgraph (s : Subgraph)
  | deleteNodes (names : List String)
deriving DecidableEq, Repr

/-- Dispatch one mutation call. -/
def applyCall (g : MutableGraphView) : MutationCall →
    Except GraphError MutableGraphView
  | .addRegularFanin n f => addRegularFanin g n f
  | .removeRegularFanin n f => removeRegularFanin g n f
  | .removeAllFanins n k => removeAllFanins g n k
  | .addControllingFanin n f => addControllingFanin g n f
  | .removeControllingFanin n f => removeControllingFanin g n f
  | .updateFanin n a b => updateFanin g n a b
  | .addNode n => addNode g n
  | .addSubgraph s => addSubgraph g s
  | .deleteNodes ns => deleteNodes g ns

/-- Run a sequence of mutation calls; a failed call is a no-op on the state
(failed calls are guaranteed not to mutate). -/
def applyCalls (g : MutableGraphView) : List MutationCall → MutableGraphView
  | [] => g
  | c :: cs =>
    match applyCall g c with
    | .ok g' => applyCalls g' cs
    | .error _ => applyCalls g cs

/-- A well-formed graph has pairwise-distinct node names (the spec's Graph is
a mapping from name to node). -/
def wellFormed (g : MutableGraphView) : Prop :=
  (g.nodes.map NodeDef.name).Nodup

instance (g : MutableGraphView) : Decidable (wellFormed g) := by
  unfold wellFormed; infer_instance

/-- Input-port/output-port correspondence at one node, as checked by the
tests: a regular fanin entry lives at the positional input port `i` and
points at a concrete output port; control entries live at the control slot. -/
def portMatches (n : NodeDef) (producer : String) (p : Int) (i : Int) : Bool :=
  if 0 ≤ p then
    0 ≤ i &&
      (match n.inputs.get? i.toNat with
       | some t => t == ⟨producer, p⟩
       | none => false)
  else if p == controlSlot then
    i == controlSlot && n.inputs.contains ⟨producer, controlSlot⟩
  else false

/-- Fanin index membership: node `consumer` has, at input port `i`, a fanin
entry on output port `(producer, p)` — computed from the consumer's own
input list (the fanin index). -/
def faninContains (g : MutableGraphView) (consumer : String) (i : Int)
    (producer : String) (p : Int) : Bool :=
  match getNode g consumer with
  | some n => portMatches n producer p i
  | none => false

/-- Fanout index membership: output port `(producer, p)` is consumed by input
port `(consumer, i)` — computed by scanning every node of the graph (the
fanout index). -/
def fanoutContains (g : MutableGraphView) (producer : String) (p : Int)
    (consumer : String) (i : Int) : Bool :=
  g.nodes.any fun n => n.name == consumer && portMatches n producer p i

/-- The shared example graph of the mutation tests
(`SimpleMutateFaninGraph`). -/
def exampleFaninGraph : MutableGraphView := ⟨[
  ⟨"a", "NotImportant", "", []⟩,
  ⟨"b", "NotImportant", "", []⟩,
  ⟨"c", "NotImportant", "", []⟩,
  ⟨"d", "NotImportant", "", []⟩,
  ⟨"foo_1", "NotImportant", "", [⟨"a", 0⟩]⟩,
  ⟨"foo_2", "NotImportant", "", [⟨"b", 0⟩, ⟨"a", -1⟩, ⟨"c", -1⟩]⟩,
  ⟨"foo_3", "NotImportant", "", [⟨"b", 0⟩, ⟨"a", 1⟩, ⟨"a", 1⟩]⟩,
  ⟨"foo_4", "NotImportant", "",
    [⟨"a", 0⟩, ⟨"b", 2⟩, ⟨"b", 2⟩, ⟨"c", -1⟩, ⟨"d", -1⟩]⟩,
  ⟨"foo_5", "NotImportant", "", []⟩,
  ⟨"foo_6", "NotImportant", "", [⟨"a", -1⟩, ⟨"b", -1⟩]⟩]⟩

/-- Scenario A: `a` (no inputs), `b` (input `a:1`), `c` (inputs `a:5` and
control `b`). -/
def scenarioAGraph : MutableGraphView := ⟨[
  ⟨"a", "NotImportant", "", []⟩,
  ⟨"b", "NotImportant", "", [⟨"a", 1⟩]⟩,
  ⟨"c", "NotImportant", "", [⟨"a", 5⟩, ⟨"b", -1⟩]⟩]⟩

/-- Scenario B: `a`, `switch` (op `Switch`), `c` (input `switch:0`). -/
def scenarioBGraph : MutableGraphView := ⟨[
  ⟨"a", "NotImportant", "", []⟩,
  ⟨"switch", "Switch", "/device:foo:0", []⟩,
  ⟨"c", "NotImportant", "", [⟨"switch", 0⟩]⟩]⟩

/-- Deduplication example: `a`, `b` (control `a`), `c` (input `a:1`). -/
def dedupExampleGraph : MutableGraphView := ⟨[
  ⟨"a", "NotImportant", "", []⟩,
  ⟨"b", "NotImportant", "", [⟨"a", -1⟩]⟩,
  ⟨"c", "NotImportant", "", [⟨"a", 1⟩]⟩]⟩

/-- Branch-tied deduplication example: `a` (Switch), `b` (Identity reading
`a:1`), `c` (input `b:2`), `d`. -/
def noDedupExampleGraph : MutableGraphView := ⟨[
  ⟨"a", "Switch", "", []⟩,
  ⟨"b", "Identity", "", [⟨"a", 1⟩]⟩,
  ⟨"c", "NotImportant", "", [⟨"b", 2⟩]⟩,
  ⟨"d", "NotImportant", "", []⟩]⟩

/-- Control-removal example: `a`, `b`, `c`, `d` (controls `a`, `b`). -/
def controlExampleGraph : MutableGraphView := ⟨[
  ⟨"a", "NotImportant", "", []⟩,
  ⟨"b", "NotImportant", "", []⟩,
  ⟨"c", "NotImportant", "", []⟩,
  ⟨"d", "NotImportant", "", [⟨"a", -1⟩, ⟨"b", -1⟩]⟩]⟩

end GraphSpec

namespace FuseOps

/-- One template position of a fusion pattern, from `fuse_ops.cc`: the HLO
opcode to match, whether the node is included in the replacement, the name of
the optional side predicate, and the input slot references (`-1` denotes an
external input not matched by the pattern). -/
structure PatternNode where
  opcode : String
  includeInReplacement : Bool
  predicate : Option String
  operands : List Int
deriving DecidableEq, Repr

/-- A fusion pattern: an ordered list of template positions. -/
def HloMatcherPattern := List PatternNode

/-- The registered fusion pattern library (`patterns` in `fuse_ops.cc`),
in priority order. -/
def patterns : List (List PatternNode) := [
  -- dynamic update slice with constant coordinate
  [⟨"DynamicUpdateSlice", true, none, [-1, -1, 1]⟩,
   ⟨"Constant", true, none, []⟩],
  -- dynamic slice with constant coordinate
  [⟨"DynamicSlice", true, none, [-1, 1]⟩,
   ⟨"Constant", true, none, []⟩],
  -- Relu
  [⟨"Maximum", true, none, [-1, 1]⟩,
   ⟨"Constant", true, some "IsConstantZero", []⟩],
  -- Sigmoid
  [⟨"Add", true, none, [4, 1]⟩,
   ⟨"Multiply", true, none, [4, 2]⟩,
   ⟨"Tanh", true, none, [3]⟩,
   ⟨"Multiply", true, none, [4, -1]⟩,
   ⟨"Constant", true, some "IsConstantHalf", []⟩],
  -- BiasAdd on convolution (explicit broadcast)
  [⟨"Add", true, none, [2, 1]⟩,
   ⟨"Call", false, some "IsPoplarConvolution", [-1, -1]⟩,
   ⟨"Broadcast", true, none, [-1]⟩],
  -- BiasAdd on convolution (implicit broadcast)
  [⟨"Add", true, none, [1, -1]⟩,
   ⟨"Call", false, some "IsPoplarConvolution", [-1, -1]⟩],
  -- External padding with constant zero
  [⟨"Pad", true, some "IsExternalPadding", [-1, 1]⟩,
   ⟨"Constant", true, some "IsConstantZero", []⟩],
  -- Random truncated normal with post scale and add
  [⟨"Add", true, none, [2, 1]⟩,
   ⟨"Constant", true, none, []⟩,
   ⟨"Multiply", true, none, [4, 3]⟩,
   ⟨"Constant", true, none, []⟩,
   ⟨"While", true, some "IsTruncatedNormalWhile", [5]⟩,
   ⟨"Rng", true, none, [6, 7]⟩,
   ⟨"Constant", true, none, []⟩,
   ⟨"Constant", true, none, []⟩],
  -- Random truncated normal without post scale and add
  [⟨"While", true, some "IsTruncatedNormalWhile", [1]⟩,
   ⟨"Rng", true, none, [2, 3]⟩,
   ⟨"Constant", true, none, []⟩,
   ⟨"Constant", true, none, []⟩],
  -- Random normal with post scale and add
  [⟨"Add", true, none, [2, 1]⟩,
   ⟨"Constant", true, none, []⟩,
   ⟨"Multiply", true, none, [4, 3]⟩,
   ⟨"Constant", true, none, []⟩,
   ⟨"Rng", true, some "IsRandomNormal", [5, 6]⟩,
   ⟨"Constant", true, none, []⟩,
   ⟨"Constant", true, none, []⟩],
  -- Random uniform with post scale and add
  [⟨"Add", true, none, [2, 1]⟩,
   ⟨"Constant", true, none, []⟩,
   ⟨"Multiply", true, none, [4, 3]⟩,
   ⟨"Constant", true, none, []⟩,
   ⟨"Rng", true, some "IsRandomUniform", [5, 6]⟩,
   ⟨"Constant", true, none, []⟩,
   ⟨"Constant", true, none, []⟩],
  -- Random 2-constant without post scale and add (normal)
  [⟨"Rng", true, some "IsRandomNormal", [1, 2]⟩,
   ⟨"Constant", true, none, []⟩,
   ⟨"Constant", true, none, []⟩],
  -- Random 2-constant without post scale and add (uniform)
  [⟨"Rng", true, some "IsRandomUniform", [1, 2]⟩,
   ⟨"Constant", true, none, []⟩,
   ⟨"Constant", true, none, []⟩],
  -- Random bernoulli
  [⟨"Rng", true, some "IsRandomBernoulli", [1]⟩,
   ⟨"Constant", true, none, []⟩],
  -- Average pool (valid)
  [⟨"Divide", true, some "IsAveragePool", [1, 3]⟩,
   ⟨"ReduceWindow", true, some "IsReductionWindowNYXC", [-1, 2]⟩,
   ⟨"Constant", true, none, []⟩,
   ⟨"Constant", true, none, []⟩],
  -- Average pool (same)
  [⟨"Divide", true, some "IsAveragePool", [1, 3]⟩,
   ⟨"ReduceWindow", true, some "IsReductionWindowNYXC", [-1, 2]⟩,
   ⟨"Constant", true, none, []⟩,
   ⟨"Reshape", true, none, [4]⟩,
   ⟨"ReduceWindow", true, none, [5, 7]⟩,
   ⟨"Broadcast", true, none, [6]⟩,
   ⟨"Constant", true, none, []⟩,
   ⟨"Constant", true, none, []⟩],
  -- Broadcast scalar constant
  [⟨"Broadcast", true, none, [1]⟩,
   ⟨"Constant", true, some "IsScalarConstant", []⟩]]

end FuseOps

namespace FuseOps

/-- **C7** counterexample: the claim that every non-negative input slot
reference declared by a template position refers to an *earlier* template
position is false for the registered pattern library — already the first
pattern's first template position (`kDynamicUpdateSlice`, slots
`[-1, -1, 1]`) references template position 1, which is later, not earlier. -/
theorem pattern_slots_not_earlier :
    ¬ (∀ pat ∈ patterns, ∀ i : Nat, ∀ h : i < pat.length,
        ∀ s ∈ (pat.get ⟨i, h⟩).operands, 0 ≤ s → s < (i : Int)) := by
  decide

/-- **C7** (amended): in every pattern of the registered fusion pattern
library, every non-negative input slot reference declared by a template
position refers to a strictly *later* template position of that pattern (and
stays in bounds); negative sentinel slot values denote external inputs.
This matches the authoring comment in `fuse_ops.cc`: there must be no
backward references, nodes appear after the nodes that refer to them. -/
theorem pattern_slots_later_in_bounds :
    ∀ pat ∈ patterns, ∀ i : Nat, ∀ h : i < pat.length,
      ∀ s ∈ (pat.get ⟨i, h⟩).operands, 0 ≤ s →
        (i : Int) < s ∧ s < (pat.length : Int) := by
  decide

/-- Witness: the amended C7 property instantiated on the first pattern,
position 0, slot value 1. -/
theorem pattern_slots_later_in_bounds_witness :
    ((0 : Nat) : Int) < 1 ∧ (1 : Int) < ((2 : Nat) : Int) := by
  exact pattern_slots_later_in_bounds
    [⟨"DynamicUpdateSlice", true, none, [-1, -1, 1]⟩,
     ⟨"Constant", true, none, []⟩]
    (by decide) 0 (by decide) 1 (by decide) (by decide)

end FuseOps

namespace GraphSpec

theorem find?_congr {α : Type} {p q : α → Bool} :
    ∀ {l : List α}, (∀ x ∈ l, p x = q x) → l.find? p = l.find? q := by
  intro l
  induction l with
  | nil => intro _; rfl
  | cons hd tl ih =>
    intro h
    have hhd := h hd (List.mem_cons_self hd tl)
    by_cases hp : p hd = true
    · rw [List.find?_cons_of_pos _ hp, List.find?_cons_of_pos _ (hhd ▸ hp)]
    · have hq : q hd ≠ true := fun hq => hp (hhd ▸ hq)
      rw [List.find?_cons_of_neg _ (by simpa using hp),
        List.find?_cons_of_neg _ (by simpa using hq)]
      exact ih fun x hx => h x (List.mem_cons_of_mem _ hx)

/-- `mapNodeInputs` preserves the list of node names. -/
theorem mapNodeInputs_names (g : MutableGraphView) (name : String)
    (f : NodeDef → List TensorId) :
    (mapNodeInputs g name f).nodes.map NodeDef.name =
      g.nodes.map NodeDef.name := by
  unfold mapNodeInputs
  simp only [List.map_map]
  apply List.map_congr_left
  intro n _
  by_cases h : n.name = name <;> simp [h]

/-- `getNode` after `mapNodeInputs`: the looked-up node is the original one,
with only its inputs rewritten when it is the targeted node. -/
theorem getNode_mapNodeInputs (g : MutableGraphView) (name : String)
    (f : NodeDef → List TensorId) (x : String) :
    getNode (mapNodeInputs g name f) x =
      (getNode g x).map
        fun n => if n.name == name then { n with inputs := f n } else n := by
  unfold getNode mapNodeInputs
  rw [List.find?_map]
  congr 1
  apply find?_congr
  intro n _
  by_cases h : n.name = name <;> simp [h]

theorem nodeExists_mapNodeInputs (g : MutableGraphView) (name : String)
    (f : NodeDef → List TensorId) (x : String) :
    nodeExists (mapNodeInputs g name f) x = nodeExists g x := by
  unfold nodeExists
  rw [getNode_mapNodeInputs]
  cases getNode g x <;> rfl

/-- In a well-formed graph every member node is found by its own name. -/
theorem getNode_of_mem {g : MutableGraphView} {n : NodeDef}
    (hw : wellFormed g) (hm : n ∈ g.nodes) : getNode g n.name = some n := by
  obtain ⟨ns⟩ := g
  simp only [getNode, wellFormed] at *
  induction ns with
  | nil => cases hm
  | cons hd tl ih =>
    rcases List.mem_cons.mp hm with h | h
    · subst h
      exact List.find?_cons_of_pos _ (by simp)
    · simp only [List.map_cons, List.nodup_cons] at hw
      by_cases hname : hd.name = n.name
      · exact absurd (hname ▸ List.mem_map_of_mem NodeDef.name h) hw.1
      · rw [List.find?_cons_of_neg _ (by simpa using hname)]
        exact ih hw.2 h

/-- If the targeted node's inputs are left unchanged, `mapNodeInputs` is the
identity (well-formed graphs have unique names). -/
theorem mapNodeInputs_eq_self {g : MutableGraphView} {x : String}
    {f : NodeDef → List TensorId} (hw : wellFormed g)
    (h : ∀ m, getNode g x = some m → f m = m.inputs) :
    mapNodeInputs g x f = g := by
  unfold mapNodeInputs
  cases g with
  | mk ns =>
    congr 1
    conv_rhs => rw [← List.map_id ns]
    apply List.map_congr_left
    intro n hn
    by_cases hx : n.name == x
    · have hx' : n.name = x := by simpa using hx
      have := getNode_of_mem hw hn
      rw [hx'] at this
      have hf := h n this
      simp [hx, hf]
    · simp [hx]

/-- `getNode` over an appended fresh node list. -/
theorem getNode_append (l l' : List NodeDef) (x : String) :
    getNode ⟨l ++ l'⟩ x = (getNode ⟨l⟩ x).or (getNode ⟨l'⟩ x) := by
  unfold getNode
  exact List.find?_append

end GraphSpec

namespace GraphSpec

/-- On a list with unique names, scanning for "named `c` and `P`" agrees with
looking up the unique node named `c` and testing `P`. -/
theorem any_name_eq_find? (l : List NodeDef) (c : String) (P : NodeDef → Bool)
    (h : (l.map NodeDef.name).Nodup) :
    (l.any fun n => n.name == c && P n) =
      (match l.find? (fun n => n.name == c) with
       | some n => P n
       | none => false) := by
  induction l with
  | nil => rfl
  | cons hd tl ih =>
    simp only [List.map_cons, List.nodup_cons] at h
    by_cases hc : hd.name = c
    · rw [List.find?_cons_of_pos _ (by simpa using hc)]
      have htl : (tl.any fun n => n.name == c && P n) = false := by
        rw [List.any_eq_false]
        intro n hn
        simp only [Bool.and_eq_true, beq_iff_eq, not_and]
        intro he _
        exact absurd (he ▸ List.mem_map_of_mem NodeDef.name hn) (hc ▸ h.1)
      simp [List.any_cons, hc, htl]
    · rw [List.find?_cons_of_neg _ (by simpa using hc)]
      simp only [List.any_cons]
      have hhd : (hd.name == c && P hd) = false := by simp [hc]
      rw [hhd, Bool.false_or]
      exact ih h.2

/-- Core inverse lemma: in any well-formed graph state, the derived fanin
index and fanout index agree at every pair of ports. -/
theorem faninContains_eq_fanoutContains {g : MutableGraphView}
    (hw : wellFormed g) (c : String) (i : Int) (q : String) (p : Int) :
    faninContains g c i q p = fanoutContains g q p c i := by
  unfold faninContains fanoutContains getNode
  exact (any_name_eq_find? g.nodes c (fun n => portMatches n q p i) hw).symm

theorem wellFormed_mapNodeInputs {g : MutableGraphView}
    (hw : wellFormed g) (x : String) (f : NodeDef → List TensorId) :
    wellFormed (mapNodeInputs g x f) := by
  unfold wellFormed
  rw [mapNodeInputs_names]
  exact hw

theorem getNode_eq_none_iff (g : MutableGraphView) (x : String) :
    getNode g x = none ↔ ∀ n ∈ g.nodes, n.name ≠ x := by
  unfold getNode
  rw [List.find?_eq_none]
  simp

theorem wellFormed_append_fresh {g : MutableGraphView} {nd : NodeDef}
    (hw : wellFormed g) (h : getNode g nd.name = none) :
    wellFormed ⟨g.nodes ++ [nd]⟩ := by
  unfold wellFormed at *
  rw [List.map_append, List.nodup_append]
  refine ⟨hw, List.nodup_singleton _, ?_⟩
  intro a ha hb
  simp only [List.map_cons, List.map_nil, List.mem_singleton] at hb
  subst hb
  rcases List.mem_map.mp ha with ⟨m, hm, hname⟩
  exact ((getNode_eq_none_iff g nd.name).mp h m hm) hname

theorem wellFormed_filter {g : MutableGraphView} (p : NodeDef → Bool)
    (hw : wellFormed g) : wellFormed ⟨g.nodes.filter p⟩ := by
  unfold wellFormed at *
  exact ((List.filter_sublist g.nodes).map NodeDef.name).nodup hw

/-- Every successful mutation call preserves well-formedness. -/
theorem applyCall_wellFormed {g g' : MutableGraphView} {c : MutationCall}
    (hw : wellFormed g) (hc : applyCall g c = .ok g') : wellFormed g' := by
  cases c with
  | addRegularFanin n f =>
    simp only [applyCall, addRegularFanin] at hc
    split at hc; · exact Except.noConfusion hc
    split at hc; · exact Except.noConfusion hc
    split at hc; · exact Except.noConfusion hc
    split at hc; · exact Except.noConfusion hc
    cases hc
    exact wellFormed_mapNodeInputs hw _ _
  | removeRegularFanin n f =>
    simp only [applyCall, removeRegularFanin] at hc
    split at hc; · exact Except.noConfusion hc
    split at hc; · exact Except.noConfusion hc
    split at hc; · exact Except.noConfusion hc
    split at hc; · exact Except.noConfusion hc
    cases hc
    exact wellFormed_mapNodeInputs hw _ _
  | removeAllFanins n k =>
    simp only [applyCall, removeAllFanins] at hc
    split at hc; · exact Except.noConfusion hc
    cases hc
    exact wellFormed_mapNodeInputs hw _ _
  | addControllingFanin n f =>
    simp only [applyCall, addControllingFanin] at hc
    split at hc; · exact Except.noConfusion hc
    split at hc; · exact Except.noConfusion hc
    split at hc
    · exact Except.noConfusion hc
    · rename_i producer _
      split at hc
      · split at hc; · exact Except.noConfusion hc
        split at hc; · exact Except.noConfusion hc
        cases hc
        exact wellFormed_mapNodeInputs hw _ _
      · split at hc
        · split at hc; · exact Except.noConfusion hc
          cases hc
          exact wellFormed_mapNodeInputs hw _ _
        · split at hc
          · split at hc; · exact Except.noConfusion hc
            cases hc
            exact wellFormed_mapNodeInputs hw _ _
          · split at hc; · exact Except.noConfusion hc
            split at hc
            · cases hc
              exact wellFormed_mapNodeInputs hw _ _
            · rename_i hnone
              cases hc
              exact wellFormed_mapNodeInputs (wellFormed_append_fresh hw hnone) _ _
  | removeControllingFanin n f =>
    simp only [applyCall, removeControllingFanin] at hc
    split at hc; · exact Except.noConfusion hc
    split at hc; · exact Except.noConfusion hc
    cases hc
    exact wellFormed_mapNodeInputs hw _ _
  | updateFanin n a b =>
    simp only [applyCall, updateFanin] at hc
    split at hc; · exact Except.noConfusion hc
    split at hc; · exact Except.noConfusion hc
    split at hc; · exact Except.noConfusion hc
    split at hc; · exact Except.noConfusion hc
    split at hc; · exact Except.noConfusion hc
    split at hc; · exact Except.noConfusion hc
    split at hc; · exact Except.noConfusion hc
    split at hc
    · cases hc
      exact hw
    · cases hc
      exact wellFormed_mapNodeInputs hw _ _
  | addNode nd =>
    simp only [applyCall, addNode] at hc
    split at hc
    · exact Except.noConfusion hc
    · rename_i hdup
      cases hc
      refine wellFormed_append_fresh hw ?_
      simpa [nodeExists, Option.not_isSome_iff_eq_none] using hdup
  | addSubgraph s =>
    simp only [applyCall, addSubgraph] at hc
    split at hc; · exact Except.noConfusion hc
    split at hc
    · rename_i hnd
      cases hc
      exact hnd
    · exact Except.noConfusion hc
  | deleteNodes ns =>
    simp only [applyCall, deleteNodes] at hc
    split at hc
    · cases hc
      exact wellFormed_filter _ hw
    · exact Except.noConfusion hc

theorem applyCalls_wellFormed (g : MutableGraphView) (cs : List MutationCall)
    (hw : wellFormed g) : wellFormed (applyCalls g cs) := by
  induction cs generalizing g with
  | nil => exact hw
  | cons c cs ih =>
    unfold applyCalls
    cases hcall : applyCall g c with
    | ok g' => exact ih g' (applyCall_wellFormed hw hcall)
    | error e => exact ih g hw

/-- **C1**: for every (well-formed) graph and after every sequence of
mutation-layer calls — failed calls leave the state untouched, so the
reachable states are exactly those after the successful calls — the fanin
index and the fanout index are exact inverses: node `n` has fanin entry
`(q, p)` at input port `i` if and only if the fanout set of output port
`(q, p)` contains the input port `(n, i)`. -/
theorem fanin_fanout_exact_inverses (g0 : MutableGraphView)
    (cs : List MutationCall) (hw : wellFormed g0) :
    ∀ (n : String) (i : Int) (q : String) (p : Int),
      faninContains (applyCalls g0 cs) n i q p =
        fanoutContains (applyCalls g0 cs) q p n i := by
  intro n i q p
  exact faninContains_eq_fanoutContains (applyCalls_wellFormed g0 cs hw) n i q p

/-- Witness for C1: after adding a regular fanin and a controlling fanin on
the dedup example graph, fanin entry `(a, 2)` of node `b` at input port 0 and
the corresponding fanout entry agree (both are present). -/
theorem fanin_fanout_exact_inverses_witness :
    faninContains
        (applyCalls dedupExampleGraph
          [.addRegularFanin "b" ⟨"a", 2⟩, .addControllingFanin "c" ⟨"a", -1⟩])
        "b" 0 "a" 2 =
      fanoutContains
        (applyCalls dedupExampleGraph
          [.addRegularFanin "b" ⟨"a", 2⟩, .addControllingFanin "c" ⟨"a", -1⟩])
        "a" 2 "b" 0 :=
  fanin_fanout_exact_inverses dedupExampleGraph
    [.addRegularFanin "b" ⟨"a", 2⟩, .addControllingFanin "c" ⟨"a", -1⟩]
    (by decide) "b" 0 "a" 2

end GraphSpec

namespace GraphSpec

theorem getNode_name {g : MutableGraphView} {x : String} {n : NodeDef}
    (h : getNode g x = some n) : n.name = x := by
  have := List.find?_some h
  simpa using this

theorem getNode_mapNodeInputs_other {g : MutableGraphView} {name : String}
    {f : NodeDef → List TensorId} {x : String} (hx : x ≠ name) :
    getNode (mapNodeInputs g name f) x = getNode g x := by
  rw [getNode_mapNodeInputs]
  cases h : getNode g x with
  | none => rfl
  | some n =>
    have hn := getNode_name h
    simp [hn, hx]

theorem getNode_mapNodeInputs_self {g : MutableGraphView} {name : String}
    {f : NodeDef → List TensorId} {m : NodeDef}
    (h : getNode g name = some m) :
    getNode (mapNodeInputs g name f) name = some { m with inputs := f m } := by
  rw [getNode_mapNodeInputs, h]
  simp [getNode_name h]

theorem mapNodeInputs_congr {g : MutableGraphView} {x : String}
    {f f' : NodeDef → List TensorId} (h : ∀ m, f m = f' m) :
    mapNodeInputs g x f = mapNodeInputs g x f' := by
  unfold mapNodeInputs
  congr 1
  apply List.map_congr_left
  intro n _
  rw [h n]

theorem mapNodeInputs_mapNodeInputs (g : MutableGraphView) (x : String)
    (f h : NodeDef → List TensorId) :
    mapNodeInputs (mapNodeInputs g x f) x h =
      mapNodeInputs g x fun n => h { n with inputs := f n } := by
  unfold mapNodeInputs
  simp only [List.map_map]
  congr 1
  apply List.map_congr_left
  intro n _
  by_cases hx : n.name = x <;> simp [hx]

theorem not_control_of_nonneg {t : TensorId} (h : (0 : Int) ≤ t.port) :
    t.isControl = false := by
  simp only [TensorId.isControl, controlSlot, beq_eq_false_iff_ne, ne_eq]
  omega

theorem control_port {t : TensorId} (h : t.isControl = true) :
    t.port = -1 := by
  simpa [TensorId.isControl, controlSlot] using h

theorem mem_controllingInputs_isControl {n : NodeDef} {t : TensorId}
    (h : t ∈ n.controllingInputs) : t.isControl = true :=
  (List.mem_filter.mp h).2

theorem mem_regularInputs_nonneg {n : NodeDef} {t : TensorId}
    (h : t ∈ n.regularInputs) : (0 : Int) ≤ t.port := by
  have := (List.mem_filter.mp h).2
  simpa using this

end GraphSpec

namespace GraphSpec

/-- **C10**: for every graph and node `n` of the graph,
`remove_controlling_fanin(n, n)` fails with a self-reference error (and,
being a failed call on a functional state, leaves the graph unchanged), even
though removal of an absent controlling fanin from a distinct producer is a
successful no-op. -/
theorem removeControllingFanin_self_error (g : MutableGraphView) (n : String)
    (hn : nodeExists g n = true) :
    removeControllingFanin g n n = .error (.selfReference n) := by
  simp [removeControllingFanin, hn]

/-- Witness for C10 on the control-removal example graph. -/
theorem removeControllingFanin_self_error_witness :
    removeControllingFanin controlExampleGraph "d" "d" =
      .error (.selfReference "d") :=
  removeControllingFanin_self_error controlExampleGraph "d" (by decide)

/-- **C6**: `remove_controlling_fanin(n, p)` is idempotent (for `n` a node of
the graph and `p` distinct from `n`): the first call succeeds, the second
call succeeds and leaves the state identical to the state after the first
call; and removing an absent controlling fanin is a successful no-op that
returns the graph unchanged. -/
theorem removeControllingFanin_idempotent (g : MutableGraphView)
    (n p : String) (hw : wellFormed g) (hn : nodeExists g n = true)
    (hp : p ≠ n) :
    (∃ g', removeControllingFanin g n p = .ok g' ∧
        removeControllingFanin g' n p = .ok g') ∧
    ((∀ m, getNode g n = some m →
        (⟨p, controlSlot⟩ : TensorId) ∉ m.inputs) →
      removeControllingFanin g n p = .ok g) := by
  have hbeq : (p == n) = false := by simpa using hp
  constructor
  · refine ⟨mapNodeInputs g n fun m => (m.eraseControllingInput p).inputs,
      ?_, ?_⟩
    · simp [removeControllingFanin, hn, hbeq]
    · have hex : nodeExists
          (mapNodeInputs g n fun m => (m.eraseControllingInput p).inputs) n
            = true := by
        rw [nodeExists_mapNodeInputs]
        exact hn
      simp only [removeControllingFanin, hex, Bool.not_true, hbeq,
        Bool.false_eq_true, if_false, Except.ok.injEq]
      rw [mapNodeInputs_mapNodeInputs]
      apply mapNodeInputs_congr
      intro m
      simp [NodeDef.eraseControllingInput, List.filter_filter]
  · intro habs
    have hid : mapNodeInputs g n
        (fun m => (m.eraseControllingInput p).inputs) = g := by
      apply mapNodeInputs_eq_self hw
      intro m hm
      simp only [NodeDef.eraseControllingInput]
      rw [List.filter_eq_self]
      intro t ht
      by_cases hc : (t.isControl && t.node == p) = true
      · exfalso
        rw [Bool.and_eq_true] at hc
        have hport := control_port hc.1
        have hnode : t.node = p := by simpa using hc.2
        have ht' : t = ⟨p, controlSlot⟩ := by
          cases t
          simp_all [controlSlot]
        exact habs m hm (ht' ▸ ht)
      · simp only [Bool.not_eq_true] at hc
        simp [hc]
    simp [removeControllingFanin, hn, hbeq, hid]

/-- Witness for C6: removing the absent controlling fanin `c` from `d` is a
successful no-op on the control-removal example graph. -/
theorem removeControllingFanin_idempotent_witness :
    removeControllingFanin controlExampleGraph "d" "c" =
      .ok controlExampleGraph :=
  (removeControllingFanin_idempotent controlExampleGraph "d" "c" (by decide)
    (by decide) (by decide)).2 (by decide)

/-- **C9** counterexample: on the test graph, node `foo_6` exists, the
producer `foo_6` of the regular tensor id `foo_6:2` exists, the tensor id is
not among `foo_6`'s inputs — the claim then asserts success — yet the call
fails with a self-reference error, because producer and node coincide. -/
theorem removeRegularFanin_absent_self_fails :
    nodeExists exampleFaninGraph "foo_6" = true ∧
    (0 : Int) ≤ 2 ∧
    (∀ m ∈ exampleFaninGraph.nodes, m.name = "foo_6" →
      ¬ ((⟨"foo_6", 2⟩ : TensorId) ∈ m.inputs)) ∧
    removeRegularFanin exampleFaninGraph "foo_6" ⟨"foo_6", 2⟩ =
      .error (.selfReference "foo_6") := by
  decide

/-- **C9** (amended): for every well-formed graph, if node `n` exists,
`t = (producer, p)` with `p ≥ 0` is a regular tensor id whose producer
exists, **the producer is distinct from `n`**, and `t` is not currently
among `n`'s inputs, then `remove_regular_fanin(n, t)` returns success and
leaves the graph (hence every fanin/fanout entry) unchanged. -/
theorem removeRegularFanin_absent_noop (g : MutableGraphView) (n : String)
    (f : TensorId) (hw : wellFormed g) (hreg : f.isRegular = true)
    (hn : nodeExists g n = true) (hf : nodeExists g f.node = true)
    (hne : f.node ≠ n)
    (habs : ∀ m, getNode g n = some m → f ∉ m.inputs) :
    removeRegularFanin g n f = .ok g := by
  have hbeq : (f.node == n) = false := by simpa using hne
  have hid : mapNodeInputs g n
      (fun m => m.inputs.filter fun t => t != f) = g := by
    apply mapNodeInputs_eq_self hw
    intro m hm
    rw [List.filter_eq_self]
    intro t ht
    have : t ≠ f := fun he => habs m hm (he ▸ ht)
    simpa using this
  simp [removeRegularFanin, hreg, hn, hf, hbeq, hid]

/-- Witness for the amended C9: removing the absent regular fanin `a:1` from
`foo_5` succeeds and leaves the test graph unchanged. -/
theorem removeRegularFanin_absent_noop_witness :
    removeRegularFanin exampleFaninGraph "foo_5" ⟨"a", 1⟩ =
      .ok exampleFaninGraph :=
  removeRegularFanin_absent_noop exampleFaninGraph "foo_5" ⟨"a", 1⟩
    (by decide) (by decide) (by decide) (by decide) (by decide) (by decide)

/-- **C8** counterexample: a reference whose port index is `-1` is *not*
always rejected — it denotes a control reference, and `update_fanin` accepts
it (here: converting the control fanin `^d` of `foo_4` into the regular
fanin `d:1`), as does `add_controlling_fanin`. -/
theorem port_neg_one_not_always_rejected :
    (updateFanin exampleFaninGraph "foo_4" ⟨"d", -1⟩ ⟨"d", 1⟩).isOk = true ∧
    (addControllingFanin controlExampleGraph "c" ⟨"a", -1⟩).isOk = true := by
  decide

/-- **C8** (amended): a port `-1` reference denotes a control dependency:
the operations that require a regular tensor id (`add_regular_fanin`,
`remove_regular_fanin`) reject it with an `InvalidTensorIdError`, while
operations accepting control references (`add_controlling_fanin`,
`update_fanin`) accept it; references with port `< -1` are rejected with an
`InvalidTensorIdError` by every mutation operation that takes a tensor
reference. -/
theorem tensor_id_port_validation (g : MutableGraphView) (n : String)
    (f t : TensorId) :
    (f.port = -1 →
      addRegularFanin g n f = .error (.invalidTensorId f) ∧
      removeRegularFanin g n f = .error (.invalidTensorId f)) ∧
    (f.port < -1 →
      addRegularFanin g n f = .error (.invalidTensorId f) ∧
      removeRegularFanin g n f = .error (.invalidTensorId f) ∧
      addControllingFanin g n f = .error (.invalidTensorId f) ∧
      updateFanin g n f t = .error (.invalidTensorId f)) ∧
    (t.port < -1 → f.isValid = true →
      updateFanin g n f t = .error (.invalidTensorId t)) ∧
    (updateFanin exampleFaninGraph "foo_4" ⟨"d", -1⟩ ⟨"d", 1⟩).isOk = true ∧
    (addControllingFanin controlExampleGraph "c" ⟨"a", -1⟩).isOk = true := by
  refine ⟨?_, ?_, ?_, by decide, by decide⟩
  · intro hp
    have hreg : f.isRegular = false := by
      simp only [TensorId.isRegular, decide_eq_false_iff_not, not_le]
      omega
    exact ⟨by simp [addRegularFanin, hreg], by simp [removeRegularFanin, hreg]⟩
  · intro hp
    have hreg : f.isRegular = false := by
      simp only [TensorId.isRegular, decide_eq_false_iff_not, not_le]
      omega
    have hval : f.isValid = false := by
      simp only [TensorId.isValid, decide_eq_false_iff_not, not_le]
      omega
    exact ⟨by simp [addRegularFanin, hreg],
      by simp [removeRegularFanin, hreg],
      by simp [addControllingFanin, hval],
      by simp [updateFanin, hval]⟩
  · intro hp hval
    have htval : t.isValid = false := by
      simp only [TensorId.isValid, decide_eq_false_iff_not, not_le]
      omega
    simp [updateFanin, hval, htval]

/-- Witness for the amended C8: the malformed reference `a:-2` is rejected by
`add_regular_fanin` with an `InvalidTensorIdError`. -/
theorem tensor_id_port_validation_witness :
    addRegularFanin exampleFaninGraph "foo_1" ⟨"a", -2⟩ =
      .error (.invalidTensorId ⟨"a", -2⟩) :=
  ((tensor_id_port_validation exampleFaninGraph "foo_1" ⟨"a", -2⟩
    ⟨"a", 0⟩).2.1 (by decide)).1

end GraphSpec

namespace GraphSpec

/-- **C2**: `delete_nodes(names)` is all-or-nothing.  When no node outside
the deletion set references (regular or control) any named node, it succeeds
and removes exactly the named nodes; otherwise it fails with a
`RetainedFanoutError` naming (only) offending nodes, each of which really is
externally referenced, and — the call being a pure function of the state —
leaves every fanin/fanout entry as before.  In particular, on the Scenario A
graph (`a`; `b` with input `a:1`; `c` with inputs `a:5` and control `b`),
`delete_nodes([a])` fails naming `a`. -/
theorem deleteNodes_all_or_nothing (g : MutableGraphView)
    (names : List String) :
    ((∀ d ∈ names, ∀ nd ∈ g.nodes, nd.name ∉ names →
        ∀ t ∈ nd.inputs, t.node ≠ d) →
      deleteNodes g names =
        .ok ⟨g.nodes.filter fun nd => !(names.contains nd.name)⟩) ∧
    (∀ g', deleteNodes g names = .ok g' →
      (∀ d ∈ names, getNode g' d = none) ∧
      ∀ nd ∈ g.nodes, nd.name ∉ names → nd ∈ g'.nodes) ∧
    (∀ e, deleteNodes g names = .error e →
      ∃ off, e = .retainedFanouts off ∧ off ≠ [] ∧
        ∀ d ∈ off, d ∈ names ∧
          ∃ nd ∈ g.nodes, nd.name ∉ names ∧ ∃ t ∈ nd.inputs, t.node = d) ∧
    deleteNodes scenarioAGraph ["a"] = .error (.retainedFanouts ["a"]) := by
  refine ⟨?_, ?_, ?_, by decide⟩
  · intro hno
    have hoff : deleteNodesOffending g names = [] := by
      unfold deleteNodesOffending
      rw [List.filter_eq_nil_iff]
      intro d hd
      rw [Bool.not_eq_true, List.any_eq_false]
      intro nd hnd
      rw [Bool.not_eq_true, Bool.and_eq_false_iff]
      by_cases hmem : nd.name ∈ names
      · left
        simpa using hmem
      · right
        rw [List.any_eq_false]
        intro t ht
        have := hno d hd nd hnd hmem t ht
        simpa using this
    unfold deleteNodes
    rw [if_pos hoff]
  · intro g' hok
    unfold deleteNodes at hok
    split at hok
    · cases hok
      constructor
      · intro d hd
        rw [getNode_eq_none_iff]
        intro nd hnd
        have := (List.mem_filter.mp hnd).2
        intro hname
        rw [hname] at this
        simp only [Bool.not_eq_true'] at this
        exact absurd hd (by simpa using this)
      · intro nd hnd hname
        exact List.mem_filter.mpr ⟨hnd, by simpa using hname⟩
    · exact Except.noConfusion hok
  · intro e herr
    unfold deleteNodes at herr
    split at herr
    · exact Except.noConfusion herr
    · rename_i hne
      refine ⟨deleteNodesOffending g names, by injection herr with h; rw [h],
        hne, ?_⟩
      intro d hd
      obtain ⟨hdn, hany⟩ := List.mem_filter.mp hd
      obtain ⟨nd, hnd, hcond⟩ := List.any_eq_true.mp hany
      rw [Bool.and_eq_true] at hcond
      obtain ⟨hout, hin⟩ := hcond
      obtain ⟨t, ht, hbeq⟩ := List.any_eq_true.mp hin
      refine ⟨hdn, nd, hnd, ?_, t, ht, by simpa using hbeq⟩
      simp only [Bool.not_eq_true'] at hout
      simpa using hout

/-- Witness for C2: deleting the whole Scenario A graph succeeds and removes
every node. -/
theorem deleteNodes_all_or_nothing_witness :
    deleteNodes scenarioAGraph ["a", "b", "c"] =
      .ok ⟨scenarioAGraph.nodes.filter
        fun nd => !(["a", "b", "c"].contains nd.name)⟩ :=
  (deleteNodes_all_or_nothing scenarioAGraph ["a", "b", "c"]).1 (by decide)

end GraphSpec

namespace GraphSpec

theorem regular_of_isRegular {t : TensorId} (h : t.isRegular = true) :
    (0 : Int) ≤ t.port := by
  simpa [TensorId.isRegular] using h

/-- The input list produced by `regularInsertInputs`: the regular prefix with
the fanin appended, followed by a sublist of the original controls. -/
theorem regularInsertInputs_shape (g : MutableGraphView) (fanin : TensorId)
    (m : NodeDef) (hreg : fanin.isRegular = true) :
    ∃ ctls, regularInsertInputs g fanin m =
        m.regularInputs ++ [fanin] ++ ctls ∧
      (∀ t ∈ ctls, t ∈ m.controllingInputs) ∧
      ∀ t ∈ ctls, t.isControl = true := by
  have hfc : fanin.isControl = false :=
    not_control_of_nonneg (regular_of_isRegular hreg)
  unfold regularInsertInputs NodeDef.addRegularInput
    NodeDef.eraseControllingInput
  split
  · refine ⟨m.controllingInputs.filter
        fun t => !(t.isControl && t.node == fanin.node),
      ?_, fun t ht => (List.mem_filter.mp ht).1,
      fun t ht => mem_controllingInputs_isControl (List.mem_filter.mp ht).1⟩
    have h1 : List.filter (fun t => !(t.isControl && t.node == fanin.node))
        m.regularInputs = m.regularInputs := by
      rw [List.filter_eq_self]
      intro t ht
      rw [not_control_of_nonneg (mem_regularInputs_nonneg ht)]
      rfl
    have h2 : List.filter (fun t => !(t.isControl && t.node == fanin.node))
        [fanin] = [fanin] := by
      simp [hfc]
    show List.filter _ (m.regularInputs ++ [fanin] ++ m.controllingInputs) = _
    rw [List.filter_append, List.filter_append, h1, h2]
  · exact ⟨m.controllingInputs, rfl, fun t ht => ht,
      fun t ht => mem_controllingInputs_isControl ht⟩

theorem filter_regular_concat (regs : List TensorId) (fanin : TensorId)
    (ctls : List TensorId) (hregs : ∀ t ∈ regs, (0 : Int) ≤ t.port)
    (hreg : (0 : Int) ≤ fanin.port) (hc : ∀ t ∈ ctls, t.isControl = true) :
    (regs ++ [fanin] ++ ctls).filter (fun t => (0 : Int) ≤ t.port) =
      regs ++ [fanin] := by
  rw [List.filter_append, List.filter_append]
  have h1 : regs.filter (fun t => (0 : Int) ≤ t.port) = regs := by
    rw [List.filter_eq_self]
    intro t ht
    simpa using hregs t ht
  have h2 : List.filter (fun t => (0 : Int) ≤ t.port) [fanin] = [fanin] := by
    simp [hreg]
  have h3 : ctls.filter (fun t => (0 : Int) ≤ t.port) = [] := by
    rw [List.filter_eq_nil_iff]
    intro t ht
    have := control_port (hc t ht)
    simp only [decide_eq_true_eq]
    omega
  rw [h1, h2, h3, List.append_nil]

theorem filter_control_concat (regs : List TensorId) (fanin : TensorId)
    (ctls : List TensorId) (hregs : ∀ t ∈ regs, (0 : Int) ≤ t.port)
    (hreg : (0 : Int) ≤ fanin.port) (hc : ∀ t ∈ ctls, t.isControl = true) :
    (regs ++ [fanin] ++ ctls).filter TensorId.isControl = ctls := by
  rw [List.filter_append, List.filter_append]
  have h1 : regs.filter TensorId.isControl = [] := by
    rw [List.filter_eq_nil_iff]
    intro t ht
    simp [not_control_of_nonneg (hregs t ht)]
  have h2 : List.filter TensorId.isControl [fanin] = [] := by
    simp [not_control_of_nonneg hreg]
  have h3 : ctls.filter TensorId.isControl = ctls := by
    rw [List.filter_eq_self]
    exact hc
  rw [h1, h2, h3]
  rfl

/-- **C4**: `add_regular_fanin(node, fanin)` succeeds — appending the fanin
as the last regular input, before any control inputs — if and only if the
node exists, the fanin producer exists, the fanin is a regular tensor id and
the producer is not the node itself; it fails with `InvalidTensorIdError`
when the fanin is not regular (e.g. a control reference), `NotFoundError`
when the node or the producer is missing, and `SelfReferenceError` when
producer equals node; failing calls return errors (leaving the functional
state untouched) and successful calls modify no other node. -/
theorem addRegularFanin_spec (g : MutableGraphView) (nodeName : String)
    (fanin : TensorId) :
    (fanin.isRegular = false →
      addRegularFanin g nodeName fanin = .error (.invalidTensorId fanin)) ∧
    (fanin.isRegular = true → nodeExists g nodeName = false →
      addRegularFanin g nodeName fanin = .error (.notFound nodeName)) ∧
    (fanin.isRegular = true → nodeExists g nodeName = true →
      nodeExists g fanin.node = false →
      addRegularFanin g nodeName fanin = .error (.notFound fanin.node)) ∧
    (fanin.isRegular = true → nodeExists g nodeName = true →
      nodeExists g fanin.node = true → fanin.node = nodeName →
      addRegularFanin g nodeName fanin = .error (.selfReference nodeName)) ∧
    ((∃ g', addRegularFanin g nodeName fanin = .ok g') ↔
      (fanin.isRegular = true ∧ nodeExists g nodeName = true ∧
        nodeExists g fanin.node = true ∧ fanin.node ≠ nodeName)) ∧
    (∀ g' m, addRegularFanin g nodeName fanin = .ok g' →
      getNode g nodeName = some m →
      (∀ x, x ≠ nodeName → getNode g' x = getNode g x) ∧
      ∃ m', getNode g' nodeName = some m' ∧
        m'.regularInputs = m.regularInputs ++ [fanin] ∧
        m'.inputs = m'.regularInputs ++ m'.controllingInputs ∧
        ∀ t ∈ m'.controllingInputs, t ∈ m.controllingInputs) := by
  refine ⟨?_, ?_, ?_, ?_, ⟨?_, ?_⟩, ?_⟩
  · intro h1
    simp [addRegularFanin, h1]
  · intro h1 h2
    simp [addRegularFanin, h1, h2]
  · intro h1 h2 h3
    simp [addRegularFanin, h1, h2, h3]
  · intro h1 h2 h3 h4
    simp [addRegularFanin, h1, h2, h3, h4]
  · rintro ⟨g', hok⟩
    by_cases c1 : fanin.isRegular = true
    · by_cases c2 : nodeExists g nodeName = true
      · by_cases c3 : nodeExists g fanin.node = true
        · by_cases c4 : fanin.node = nodeName
          · rw [show addRegularFanin g nodeName fanin =
                .error (.selfReference nodeName) from
                  by simp [addRegularFanin, c1, c2, c3, c4]] at hok
            exact Except.noConfusion hok
          · exact ⟨c1, c2, c3, c4⟩
        · rw [Bool.not_eq_true] at c3
          rw [show addRegularFanin g nodeName fanin =
              .error (.notFound fanin.node) from
                by simp [addRegularFanin, c1, c2, c3]] at hok
          exact Except.noConfusion hok
      · rw [Bool.not_eq_true] at c2
        rw [show addRegularFanin g nodeName fanin =
            .error (.notFound nodeName) from
              by simp [addRegularFanin, c1, c2]] at hok
        exact Except.noConfusion hok
    · rw [Bool.not_eq_true] at c1
      rw [show addRegularFanin g nodeName fanin =
          .error (.invalidTensorId fanin) from
            by simp [addRegularFanin, c1]] at hok
      exact Except.noConfusion hok
  · rintro ⟨c1, c2, c3, c4⟩
    have hbeq : (fanin.node == nodeName) = false := by simpa using c4
    exact ⟨mapNodeInputs g nodeName (regularInsertInputs g fanin),
      by simp [addRegularFanin, c1, c2, c3, hbeq]⟩
  · intro g' m hok hm
    unfold addRegularFanin at hok
    split at hok; · exact Except.noConfusion hok
    split at hok; · exact Except.noConfusion hok
    split at hok; · exact Except.noConfusion hok
    split at hok; · exact Except.noConfusion hok
    rename_i hr0 _ _ _
    have hr : fanin.isRegular = true := by simpa using hr0
    cases hok
    refine ⟨fun x hx => getNode_mapNodeInputs_other hx, ?_⟩
    obtain ⟨ctls, hshape, hmem, hctl⟩ := regularInsertInputs_shape g fanin m hr
    refine ⟨{ m with inputs := regularInsertInputs g fanin m },
      getNode_mapNodeInputs_self hm, ?_, ?_, ?_⟩
    · show (regularInsertInputs g fanin m).filter _ = _
      rw [hshape]
      exact filter_regular_concat _ _ _
        (fun t ht => mem_regularInputs_nonneg ht)
        (regular_of_isRegular hr) hctl
    · show regularInsertInputs g fanin m =
        (regularInsertInputs g fanin m).filter _ ++
          (regularInsertInputs g fanin m).filter _
      rw [hshape,
        filter_regular_concat _ _ _ (fun t ht => mem_regularInputs_nonneg ht)
          (regular_of_isRegular hr) hctl,
        filter_control_concat _ _ _ (fun t ht => mem_regularInputs_nonneg ht)
          (regular_of_isRegular hr) hctl]
    · intro t ht
      have : t ∈ ctls := by
        have hc : (regularInsertInputs g fanin m).filter TensorId.isControl
            = ctls := by
          rw [hshape]
          exact filter_control_concat _ _ _
            (fun t ht => mem_regularInputs_nonneg ht)
            (regular_of_isRegular hr) hctl
        rw [show ({ m with inputs := regularInsertInputs g fanin m} :
            NodeDef).controllingInputs =
          (regularInsertInputs g fanin m).filter TensorId.isControl from rfl,
          hc] at ht
        exact ht
      exact hmem t this

/-- Witness for C4: adding `b:1` to `foo_1` on the test graph succeeds with
the fanin appended as the last regular input. -/
theorem addRegularFanin_spec_witness :
    addRegularFanin exampleFaninGraph "foo_1" ⟨"b", 1⟩ =
      .error (.invalidTensorId ⟨"b", 1⟩) ∨
    (∃ g', addRegularFanin exampleFaninGraph "foo_1" ⟨"b", 1⟩ = .ok g') :=
  .inr ((addRegularFanin_spec exampleFaninGraph "foo_1" ⟨"b", 1⟩).2.2.2.2.1.2
    ⟨by decide, by decide, by decide, by decide⟩)

end GraphSpec

namespace GraphSpec

theorem control_tensor_isControl (producer : String) :
    (⟨producer, controlSlot⟩ : TensorId).isControl = true := by
  simp [TensorId.isControl]

/-- The inserted branch-construct control dependency is always present in the
resulting input list. -/
theorem mem_controlDependOnInputs (producer : String) (m : NodeDef) :
    (⟨producer, controlSlot⟩ : TensorId) ∈ controlDependOnInputs producer m := by
  unfold controlDependOnInputs
  split
  · rename_i h
    obtain ⟨t, ht, hbeq⟩ := List.any_eq_true.mp h
    have hport := control_port (mem_controllingInputs_isControl ht)
    have ht' : t = ⟨producer, controlSlot⟩ := by
      obtain ⟨tn, tp⟩ := t
      simp only [beq_iff_eq] at hbeq
      simp only at hbeq hport
      rw [controlSlot, hbeq, hport]
    exact ht' ▸ (List.mem_filter.mp ht).1
  · exact List.mem_append_right _ (List.mem_singleton.mpr rfl)

/-- If the control dependency is already present, recording it again is the
identity on the graph. -/
theorem dependOnNode_noop {g : MutableGraphView} {n producer : String}
    (hw : wellFormed g)
    (h : ∀ m, getNode g n = some m →
      (⟨producer, controlSlot⟩ : TensorId) ∈ m.inputs) :
    dependOnNode g n producer = g := by
  apply mapNodeInputs_eq_self hw
  intro m hm
  unfold controlDependOnInputs
  split
  · rfl
  · rename_i hany
    exfalso
    apply hany
    rw [List.any_eq_true]
    exact ⟨⟨producer, controlSlot⟩,
      List.mem_filter.mpr ⟨h m hm, control_tensor_isControl producer⟩,
      by simp⟩

theorem nodeExists_of_getNode {g : MutableGraphView} {x : String}
    {m : NodeDef} (h : getNode g x = some m) : nodeExists g x = true := by
  simp [nodeExists, h]

/-- **C5**: controlling-fanin deduplication.
1. Adding a controlling fanin that duplicates an existing regular fanin from
   the same (non-branch-tied, non-Switch) producer is absorbed: the call
   succeeds and the graph is completely unchanged.
2. Symmetrically, adding a regular fanin absorbs an existing controlling
   fanin from the same deduplicatable producer.
3. The same control-add against a branch-construct (Switch) producer output
   inserts a pass-through Identity node instead.
4. Controlling inputs whose producer is tied to a branch construct (an
   Identity reading a Switch output) are never silently deduplicated against
   regular inputs: the control edge is appended even though a regular fanin
   from the same producer exists. -/
theorem controlling_fanin_dedup_spec :
    (∀ (g : MutableGraphView) (n q : String) (m nq : NodeDef),
      wellFormed g → getNode g n = some m → getNode g q = some nq →
      isSwitchOp nq = false → isIdentityConsumingSwitch g nq = false →
      q ≠ n → (m.regularInputs.any fun t => t.node == q) = true →
      addControllingFanin g n ⟨q, controlSlot⟩ = .ok g) ∧
    (∀ (g : MutableGraphView) (n q : String) (p : Int) (m nq : NodeDef),
      getNode g n = some m → getNode g q = some nq →
      isIdentityConsumingSwitch g nq = false → q ≠ n → 0 ≤ p →
      ∃ g' m', addRegularFanin g n ⟨q, p⟩ = .ok g' ∧
        getNode g' n = some m' ∧
        (⟨q, controlSlot⟩ : TensorId) ∉ m'.inputs ∧
        (⟨q, p⟩ : TensorId) ∈ m'.inputs) ∧
    (∀ (g : MutableGraphView) (n s : String) (p : Int) (m prod : NodeDef),
      getNode g n = some m → getNode g s = some prod →
      isSwitchOp prod = true → 0 ≤ p →
      findIdentityConsumer g ⟨s, p⟩ = none →
      switchIdentityName s p ≠ n →
      getNode g (switchIdentityName s p) = none →
      ∃ g', addControllingFanin g n ⟨s, p⟩ = .ok g' ∧
        g'.nodes.length = g.nodes.length + 1 ∧
        (∃ idn, getNode g' (switchIdentityName s p) = some idn ∧
          idn.op = "Identity" ∧ idn.inputs = [⟨s, p⟩]) ∧
        ∃ m', getNode g' n = some m' ∧
          (⟨switchIdentityName s p, controlSlot⟩ : TensorId) ∈ m'.inputs) ∧
    (∀ (g : MutableGraphView) (n b : String) (m nb : NodeDef),
      getNode g n = some m → getNode g b = some nb →
      isSwitchOp nb = false → isIdentityConsumingSwitch g nb = true →
      b ≠ n → (m.controllingInputs.any fun t => t.node == b) = false →
      ∃ g' m', addControllingFanin g n ⟨b, controlSlot⟩ = .ok g' ∧
        getNode g' n = some m' ∧
        m'.inputs = m.inputs ++ [⟨b, controlSlot⟩]) := by
  refine ⟨?_, ?_, ?_, ?_⟩
  · intro g n q m nq hw hm hq hsw hics hqn hreg
    have hex : nodeExists g n = true := nodeExists_of_getNode hm
    have hbeq : (q == n) = false := by simpa using hqn
    have hnoop : addControllingToNode g n q = g := by
      apply mapNodeInputs_eq_self hw
      intro m' hm'
      have hmm : m' = m := by
        rw [hm] at hm'
        exact (Option.some.inj hm').symm
      subst hmm
      unfold controlInsertInputs
      split
      · rfl
      · split
        · rfl
        · rename_i hcond2
          exact absurd
            (by simp [canDedupControlWithRegularInput, hq, hics, hreg]) hcond2
    simp only [addControllingFanin]
    rw [if_neg (by simp [TensorId.isValid, controlSlot]),
      if_neg (by simp [hex])]
    show (match getNode g q with
      | none => _
      | some producer => _) = _
    rw [hq]
    simp only [control_tensor_isControl, if_pos, hsw]
    rw [if_neg (by simp), if_neg (by simp [hbeq, hqn]), hnoop]
  · intro g n q p m nq hm hq hics hqn hp
    have hex : nodeExists g n = true := nodeExists_of_getNode hm
    have hexq : nodeExists g q = true := nodeExists_of_getNode hq
    have hregb : (⟨q, p⟩ : TensorId).isRegular = true := by
      simp [TensorId.isRegular]
      omega
    have hbeq : (q == n) = false := by simpa using hqn
    have hdedup : canDedupControlWithRegularInput g q = true := by
      simp [canDedupControlWithRegularInput, hq, hics]
    refine ⟨mapNodeInputs g n (regularInsertInputs g ⟨q, p⟩),
      { m with inputs := regularInsertInputs g ⟨q, p⟩ m },
      by simp [addRegularFanin, hregb, hex, hexq, hbeq],
      getNode_mapNodeInputs_self hm, ?_, ?_⟩
    · show ¬ _ ∈ regularInsertInputs g ⟨q, p⟩ m
      unfold regularInsertInputs
      rw [if_pos hdedup]
      intro hmem
      have := (List.mem_filter.mp hmem).2
      simp [control_tensor_isControl] at this
    · show _ ∈ regularInsertInputs g ⟨q, p⟩ m
      unfold regularInsertInputs
      rw [if_pos hdedup]
      apply List.mem_filter.mpr
      refine ⟨?_, ?_⟩
      · show _ ∈ m.regularInputs ++ [(⟨q, p⟩ : TensorId)] ++ _
        exact List.mem_append_left _ (List.mem_append_right _
          (List.mem_singleton.mpr rfl))
      · have : (⟨q, p⟩ : TensorId).isControl = false :=
          not_control_of_nonneg hp
        simp [this]
  · intro g n s p m prod hm hs hsw hp hfind hgenne hgen
    have hex : nodeExists g n = true := nodeExists_of_getNode hm
    have hval : (⟨s, p⟩ : TensorId).isValid = true := by
      simp [TensorId.isValid]
      omega
    have hctl : (⟨s, p⟩ : TensorId).isControl = false := by
      simp [TensorId.isControl, controlSlot]
      omega
    have hgenbeq : (switchIdentityName s p == n) = false := by simpa using hgenne
    refine ⟨dependOnNode
      ⟨g.nodes ++ [⟨switchIdentityName s p, "Identity", prod.device, [⟨s, p⟩]⟩]⟩
      n (switchIdentityName s p), ?_, ?_, ?_, ?_⟩
    · simp only [addControllingFanin, hval, hex, hs, hctl, hsw, hfind, hgen,
        hgenbeq, Bool.not_true, Bool.not_false, Bool.false_eq_true,
        Bool.true_eq_false, if_false, if_true]
    · simp [dependOnNode, mapNodeInputs]
    · refine ⟨⟨switchIdentityName s p, "Identity", prod.device, [⟨s, p⟩]⟩,
        ?_, rfl, rfl⟩
      rw [dependOnNode, getNode_mapNodeInputs_other hgenne, getNode_append,
        hgen]
      simp [getNode]
    · refine ⟨{ m with inputs :=
          controlDependOnInputs (switchIdentityName s p) m }, ?_, ?_⟩
      · rw [dependOnNode]
        apply getNode_mapNodeInputs_self
        rw [getNode_append, hm]
        rfl
      · exact mem_controlDependOnInputs _ m
  · intro g n b m nb hm hb hsw hics hbn hctl
    have hex : nodeExists g n = true := nodeExists_of_getNode hm
    have hbeq : (b == n) = false := by simpa using hbn
    refine ⟨addControllingToNode g n b,
      { m with inputs := controlInsertInputs g b m },
      ?_, getNode_mapNodeInputs_self hm, ?_⟩
    · simp only [addControllingFanin]
      rw [if_neg (by simp [TensorId.isValid, controlSlot]),
        if_neg (by simp [hex])]
      show (match getNode g b with
        | none => _
        | some producer => _) = _
      rw [hb]
      simp only [control_tensor_isControl, if_pos, hsw]
      rw [if_neg (by simp), if_neg (by simp [hbeq, hbn])]
    · unfold controlInsertInputs
      rw [if_neg (by simp [hctl]), if_neg (by
        simp [canDedupControlWithRegularInput, hb, hics])]
      rfl

/-- Witness for C5 (part 1): on the dedup example graph, adding the control
`^a` to `c`, which already reads `a:1`, is absorbed and the graph is
unchanged. -/
theorem controlling_fanin_dedup_spec_witness :
    addControllingFanin dedupExampleGraph "c" ⟨"a", controlSlot⟩ =
      .ok dedupExampleGraph :=
  controlling_fanin_dedup_spec.1 dedupExampleGraph "c" "a"
    ⟨"c", "NotImportant", "", [⟨"a", 1⟩]⟩ ⟨"a", "NotImportant", "", []⟩
    (by decide) (by decide) (by decide) (by decide) (by decide) (by decide)
    (by decide)

end GraphSpec

namespace GraphSpec

theorem mem_controlDependOnInputs_iff (producer : String) (m : NodeDef)
    (t : TensorId) (hne : t ≠ ⟨producer, controlSlot⟩) :
    (t ∈ controlDependOnInputs producer m) ↔ t ∈ m.inputs := by
  unfold controlDependOnInputs
  split
  · exact Iff.rfl
  · show t ∈ m.inputs ++ [(⟨producer, controlSlot⟩ : TensorId)] ↔ _
    rw [List.mem_append, List.mem_singleton]
    constructor
    · rintro (h | h)
      · exact h
      · exact absurd h hne
    · exact Or.inl

theorem head?_controlDependOnInputs (producer : String) (m : NodeDef)
    (t : TensorId) (ht : t.isControl = false) :
    ((controlDependOnInputs producer m).head? == some t) =
      (m.inputs.head? == some t) := by
  unfold controlDependOnInputs
  split
  · rfl
  · show ((m.inputs ++ [(⟨producer, controlSlot⟩ : TensorId)]).head? ==
      some t) = _
    rw [List.head?_append]
    cases h : m.inputs.head? with
    | some a => rfl
    | none =>
      have hne : (⟨producer, controlSlot⟩ : TensorId) ≠ t := by
        intro he
        rw [← he] at ht
        rw [control_tensor_isControl] at ht
        exact Bool.noConfusion ht
      simp [hne]

theorem findIdentityConsumer_dependOnNode (g : MutableGraphView)
    (x producer : String) (t : TensorId) (ht : t.isControl = false) :
    findIdentityConsumer (dependOnNode g x producer) t =
      findIdentityConsumer g t := by
  unfold findIdentityConsumer dependOnNode mapNodeInputs
  rw [List.find?_map]
  rw [show List.find?
      ((fun m => isIdentityOp m && m.inputs.head? == some t) ∘
        fun n => if n.name == x
          then { n with inputs := controlDependOnInputs producer n } else n)
      g.nodes =
    List.find? (fun m => isIdentityOp m && m.inputs.head? == some t)
      g.nodes from find?_congr ?_]
  · cases h : List.find? _ g.nodes with
    | none => rfl
    | some u =>
      show some _ = some u.name
      congr 1
      by_cases hx : u.name = x <;> simp [hx]
  · intro n _
    by_cases hx : n.name = x
    · simp only [Function.comp, hx, beq_self_eq_true, if_true]
      rw [head?_controlDependOnInputs producer n t ht]
      rfl
    · simp [Function.comp, hx]

theorem findIdentityConsumer_append (l l' : List NodeDef) (t : TensorId) :
    findIdentityConsumer ⟨l ++ l'⟩ t =
      (findIdentityConsumer ⟨l⟩ t).or (findIdentityConsumer ⟨l'⟩ t) := by
  unfold findIdentityConsumer
  show ((l ++ l').find? _).map _ = _
  rw [List.find?_append]
  cases l.find? _ <;> rfl

theorem switchIdentityName_ne (s : String) (p : Int) :
    switchIdentityName s p ≠ s := by
  intro h
  have hlen := congrArg String.length h
  rw [show switchIdentityName s p =
    "ConstantFoldingCtrl/" ++ s ++ "_" ++ toString p from rfl] at hlen
  rw [String.length_append, String.length_append, String.length_append,
    show ("ConstantFoldingCtrl/" : String).length = 20 from rfl,
    show ("_" : String).length = 1 from rfl] at hlen
  omega

end GraphSpec

namespace GraphSpec

/-- Evaluation of `addControllingFanin` on a Switch output when an Identity
consumer is found. -/
theorem addControllingFanin_eval_found (G : MutableGraphView) (n s : String)
    (p : Int) (producerX : NodeDef) (idName : String)
    (hval : (⟨s, p⟩ : TensorId).isValid = true)
    (hctl : (⟨s, p⟩ : TensorId).isControl = false)
    (hex : nodeExists G n = true)
    (hsX : getNode G s = some producerX)
    (hswX : isSwitchOp producerX = true)
    (hfindX : findIdentityConsumer G ⟨s, p⟩ = some idName)
    (hidn : idName ≠ n) :
    addControllingFanin G n ⟨s, p⟩ = .ok (dependOnNode G n idName) := by
  have hb : (idName == n) = false := by simpa using hidn
  simp only [addControllingFanin, hval, hex, hsX, hctl, hswX, hfindX, hb,
    Bool.not_true, Bool.not_false, Bool.false_eq_true, Bool.true_eq_false,
    if_true, if_false, ite_false, ite_true]

/-- Evaluation of `addControllingFanin` on a Switch output when no Identity
consumer exists but a node carrying the generated name does. -/
theorem addControllingFanin_eval_reuse (G : MutableGraphView) (n s : String)
    (p : Int) (producerX w : NodeDef)
    (hval : (⟨s, p⟩ : TensorId).isValid = true)
    (hctl : (⟨s, p⟩ : TensorId).isControl = false)
    (hex : nodeExists G n = true)
    (hsX : getNode G s = some producerX)
    (hswX : isSwitchOp producerX = true)
    (hfindX : findIdentityConsumer G ⟨s, p⟩ = none)
    (hgenn : switchIdentityName s p ≠ n)
    (hgetgen : getNode G (switchIdentityName s p) = some w) :
    addControllingFanin G n ⟨s, p⟩ =
      .ok (dependOnNode G n (switchIdentityName s p)) := by
  have hb : (switchIdentityName s p == n) = false := by simpa using hgenn
  simp only [addControllingFanin, hval, hex, hsX, hctl, hswX, hfindX, hb,
    hgetgen, Bool.not_true, Bool.not_false, Bool.false_eq_true,
    Bool.true_eq_false, if_true, if_false, ite_false, ite_true]

/-- Evaluation of `addControllingFanin` on a Switch output when the
pass-through Identity node must be created. -/
theorem addControllingFanin_eval_create (G : MutableGraphView) (n s : String)
    (p : Int) (producerX : NodeDef)
    (hval : (⟨s, p⟩ : TensorId).isValid = true)
    (hctl : (⟨s, p⟩ : TensorId).isControl = false)
    (hex : nodeExists G n = true)
    (hsX : getNode G s = some producerX)
    (hswX : isSwitchOp producerX = true)
    (hfindX : findIdentityConsumer G ⟨s, p⟩ = none)
    (hgenn : switchIdentityName s p ≠ n)
    (hgetgen : getNode G (switchIdentityName s p) = none) :
    addControllingFanin G n ⟨s, p⟩ =
      .ok (dependOnNode
        ⟨G.nodes ++ [⟨switchIdentityName s p, "Identity", producerX.device,
          [⟨s, p⟩]⟩]⟩ n (switchIdentityName s p)) := by
  have hb : (switchIdentityName s p == n) = false := by simpa using hgenn
  simp only [addControllingFanin, hval, hex, hsX, hctl, hswX, hfindX, hb,
    hgetgen, Bool.not_true, Bool.not_false, Bool.false_eq_true,
    Bool.true_eq_false, if_true, if_false, ite_false, ite_true]

end GraphSpec

namespace GraphSpec

/-- **C3**: for every well-formed graph, node `n` and Switch producer output
port `(s, p)` with `p ≥ 0`, a successful `add_controlling_fanin(n, (s, p))`
never records a control dependency on `s` directly: the dependency target is
an existing pass-through Identity node reading `(s, p)` or the node with the
deterministic generated name derived from producer and port, `n` ends up
with a control dependency on that pass-through, the set of direct controls
on `s` is unchanged, and repeating the identical call is a no-op (same
state: no duplicate edge, no second pass-through node). -/
theorem addControllingFanin_switch_passthrough
    (g g' : MutableGraphView) (n s : String) (p : Int) (prod : NodeDef)
    (hw : wellFormed g) (hs0 : getNode g s = some prod)
    (hsw0 : isSwitchOp prod = true) (hp : 0 ≤ p)
    (hok : addControllingFanin g n ⟨s, p⟩ = .ok g') :
    (∃ idName m', idName ≠ s ∧ getNode g' n = some m' ∧
      (⟨idName, controlSlot⟩ : TensorId) ∈ m'.inputs ∧
      ((∃ idn ∈ g.nodes, idn.name = idName ∧ isIdentityOp idn = true ∧
          idn.inputs.head? = some ⟨s, p⟩) ∨
        idName = switchIdentityName s p)) ∧
    (∀ m m', getNode g n = some m → getNode g' n = some m' →
      ((⟨s, controlSlot⟩ : TensorId) ∈ m'.inputs ↔
        (⟨s, controlSlot⟩ : TensorId) ∈ m.inputs)) ∧
    addControllingFanin g' n ⟨s, p⟩ = .ok g' := by
  have hval : (⟨s, p⟩ : TensorId).isValid = true := by
    simp only [TensorId.isValid, decide_eq_true_eq]
    omega
  have hctl : (⟨s, p⟩ : TensorId).isControl = false := by
    simp only [TensorId.isControl, controlSlot, beq_eq_false_iff_ne, ne_eq]
    omega
  unfold addControllingFanin at hok
  split at hok
  · exact Except.noConfusion hok
  split at hok
  · exact Except.noConfusion hok
  rename_i hexb
  have hex : nodeExists g n = true := by simpa using hexb
  obtain ⟨m, hm⟩ : ∃ m, getNode g n = some m :=
    Option.isSome_iff_exists.mp hex
  split at hok
  · exact Except.noConfusion hok
  rename_i producer hprod
  have hpe : prod = producer := Option.some.inj (hs0.symm.trans hprod)
  have hs : getNode g s = some producer := hpe ▸ hs0
  have hsw : isSwitchOp producer = true := hpe ▸ hsw0
  split at hok
  · rename_i hc
    rw [hctl] at hc
    exact Bool.noConfusion hc
  split at hok
  · rename_i hnsw
    rw [hsw] at hnsw
    exact Bool.noConfusion hnsw
  split at hok
  -- Case 1: an existing pass-through Identity consumer was found.
  · rename_i idName hfind
    split at hok
    · exact Except.noConfusion hok
    rename_i hidnb
    have hidn : idName ≠ n := by simpa using hidnb
    cases hok
    obtain ⟨u, hu, huname⟩ : ∃ u,
        (g.nodes.find? fun m2 =>
          isIdentityOp m2 && m2.inputs.head? == some ⟨s, p⟩) = some u ∧
        u.name = idName := by
      unfold findIdentityConsumer at hfind
      obtain ⟨u, hu1, hu2⟩ := Option.map_eq_some'.mp hfind
      exact ⟨u, hu1, hu2⟩
    have humem : u ∈ g.nodes := List.mem_of_find?_eq_some hu
    have hupred := List.find?_some hu
    rw [Bool.and_eq_true] at hupred
    have huid : isIdentityOp u = true := hupred.1
    have huhead : u.inputs.head? = some ⟨s, p⟩ := by simpa using hupred.2
    have hidns : idName ≠ s := by
      intro he
      have hgu : getNode g s = some u := by
        rw [← he, ← huname]
        exact getNode_of_mem hw humem
      rw [hs] at hgu
      have hpu := Option.some.inj hgu
      rw [← hpu] at huid
      have h1 : producer.op = "Identity" := by simpa [isIdentityOp] using huid
      have h2 : producer.op = "Switch" := by simpa [isSwitchOp] using hsw
      rw [h1] at h2
      exact absurd h2 (by decide)
    refine ⟨⟨idName, { m with inputs := controlDependOnInputs idName m },
      hidns, getNode_mapNodeInputs_self hm,
      mem_controlDependOnInputs idName m,
      Or.inl ⟨u, humem, huname, huid, huhead⟩⟩, ?_, ?_⟩
    · intro m0 m0' hm0 hm0'
      have hm0eq : m0 = m := (Option.some.inj (hm.symm.trans hm0)).symm
      have hm0'eq : m0' =
          { m with inputs := controlDependOnInputs idName m } :=
        (Option.some.inj
          (((getNode_mapNodeInputs_self (f := controlDependOnInputs idName)
            hm)).symm.trans hm0')).symm
      rw [hm0eq, hm0'eq]
      exact mem_controlDependOnInputs_iff idName m ⟨s, controlSlot⟩
        (by intro he; exact hidns.symm (congrArg TensorId.node he))
    · have hex' : nodeExists (dependOnNode g n idName) n = true := by
        rw [dependOnNode, nodeExists_mapNodeInputs]
        exact hex
      have hs' : getNode (dependOnNode g n idName) s =
          some (if producer.name == n
            then { producer with
              inputs := controlDependOnInputs idName producer }
            else producer) := by
        rw [dependOnNode, getNode_mapNodeInputs, hs]
        rfl
      have hsw' : isSwitchOp (if producer.name == n
          then { producer with
            inputs := controlDependOnInputs idName producer }
          else producer) = true := by
        split
        · exact hsw
        · exact hsw
      have hfind' : findIdentityConsumer (dependOnNode g n idName) ⟨s, p⟩ =
          some idName := by
        rw [findIdentityConsumer_dependOnNode g n idName ⟨s, p⟩ hctl]
        exact hfind
      have hnoop : dependOnNode (dependOnNode g n idName) n idName =
          dependOnNode g n idName := by
        apply dependOnNode_noop (wellFormed_mapNodeInputs hw n _)
        intro m2 hm2
        have hm2eq : m2 = { m with
            inputs := controlDependOnInputs idName m } :=
          (Option.some.inj
            ((getNode_mapNodeInputs_self hm).symm.trans hm2)).symm
        rw [hm2eq]
        exact mem_controlDependOnInputs idName m
      exact (addControllingFanin_eval_found (dependOnNode g n idName) n s p
        _ idName hval hctl hex' hs' hsw' hfind' hidn).trans
        (congrArg Except.ok hnoop)
  -- No existing consumer: generated-name paths.
  · rename_i hfind
    split at hok
    · exact Except.noConfusion hok
    rename_i hgennb
    have hgenn : switchIdentityName s p ≠ n := by simpa using hgennb
    have hgenns : switchIdentityName s p ≠ s := switchIdentityName_ne s p
    split at hok
    -- Case 2: a node with the generated name already exists; reuse it.
    · rename_i w hw0
      cases hok
      refine ⟨⟨switchIdentityName s p,
        { m with inputs := controlDependOnInputs (switchIdentityName s p) m },
        hgenns, getNode_mapNodeInputs_self hm,
        mem_controlDependOnInputs _ m, Or.inr rfl⟩, ?_, ?_⟩
      · intro m0 m0' hm0 hm0'
        have hm0eq : m0 = m := (Option.some.inj (hm.symm.trans hm0)).symm
        have hm0'eq : m0' = { m with
            inputs := controlDependOnInputs (switchIdentityName s p) m } :=
          (Option.some.inj
            (((getNode_mapNodeInputs_self
              (f := controlDependOnInputs (switchIdentityName s p))
              hm)).symm.trans hm0')).symm
        rw [hm0eq, hm0'eq]
        exact mem_controlDependOnInputs_iff _ m ⟨s, controlSlot⟩
          (by intro he; exact hgenns.symm (congrArg TensorId.node he))
      · have hex' : nodeExists (dependOnNode g n (switchIdentityName s p)) n
            = true := by
          rw [dependOnNode, nodeExists_mapNodeInputs]
          exact hex
        have hs' : getNode (dependOnNode g n (switchIdentityName s p)) s =
            some (if producer.name == n
              then { producer with inputs :=
                controlDependOnInputs (switchIdentityName s p) producer }
              else producer) := by
          rw [dependOnNode, getNode_mapNodeInputs, hs]
          rfl
        have hsw' : isSwitchOp (if producer.name == n
            then { producer with inputs :=
              controlDependOnInputs (switchIdentityName s p) producer }
            else producer) = true := by
          split
          · exact hsw
          · exact hsw
        have hfind' : findIdentityConsumer
            (dependOnNode g n (switchIdentityName s p)) ⟨s, p⟩ = none := by
          rw [findIdentityConsumer_dependOnNode g n _ ⟨s, p⟩ hctl]
          exact hfind
        have hw0' : getNode (dependOnNode g n (switchIdentityName s p))
            (switchIdentityName s p) = some (if w.name == n
              then { w with inputs :=
                controlDependOnInputs (switchIdentityName s p) w }
              else w) := by
          rw [dependOnNode, getNode_mapNodeInputs, hw0]
          rfl
        have hnoop : dependOnNode (dependOnNode g n (switchIdentityName s p))
            n (switchIdentityName s p) =
            dependOnNode g n (switchIdentityName s p) := by
          apply dependOnNode_noop (wellFormed_mapNodeInputs hw n _)
          intro m2 hm2
          have hm2eq : m2 = { m with
              inputs := controlDependOnInputs (switchIdentityName s p) m } :=
            (Option.some.inj
              ((getNode_mapNodeInputs_self hm).symm.trans hm2)).symm
          rw [hm2eq]
          exact mem_controlDependOnInputs _ m
        exact (addControllingFanin_eval_reuse
          (dependOnNode g n (switchIdentityName s p)) n s p _ _
          hval hctl hex' hs' hsw' hfind' hgenn hw0').trans
          (congrArg Except.ok hnoop)
    -- Case 3: create the pass-through Identity with the generated name.
    · rename_i hnone
      cases hok
      have hm2 : getNode
          (⟨g.nodes ++ [⟨switchIdentityName s p, "Identity", producer.device,
            [⟨s, p⟩]⟩]⟩ : MutableGraphView) n = some m := by
        rw [getNode_append, hm]
        rfl
      refine ⟨⟨switchIdentityName s p,
        { m with inputs := controlDependOnInputs (switchIdentityName s p) m },
        hgenns, getNode_mapNodeInputs_self hm2,
        mem_controlDependOnInputs _ m, Or.inr rfl⟩, ?_, ?_⟩
      · intro m0 m0' hm0 hm0'
        have hm0eq : m0 = m := (Option.some.inj (hm.symm.trans hm0)).symm
        have hm0'eq : m0' = { m with
            inputs := controlDependOnInputs (switchIdentityName s p) m } :=
          (Option.some.inj
            (((getNode_mapNodeInputs_self
              (f := controlDependOnInputs (switchIdentityName s p))
              hm2)).symm.trans hm0')).symm
        rw [hm0eq, hm0'eq]
        exact mem_controlDependOnInputs_iff _ m ⟨s, controlSlot⟩
          (by intro he; exact hgenns.symm (congrArg TensorId.node he))
      · have hexG2 : nodeExists
            (⟨g.nodes ++ [⟨switchIdentityName s p, "Identity",
              producer.device, [⟨s, p⟩]⟩]⟩ : MutableGraphView) n = true := by
          simp [nodeExists, hm2]
        have hex' : nodeExists (dependOnNode
            ⟨g.nodes ++ [⟨switchIdentityName s p, "Identity", producer.device,
              [⟨s, p⟩]⟩]⟩ n (switchIdentityName s p)) n = true := by
          rw [dependOnNode, nodeExists_mapNodeInputs]
          exact hexG2
        have hsG2 : getNode
            (⟨g.nodes ++ [⟨switchIdentityName s p, "Identity",
              producer.device, [⟨s, p⟩]⟩]⟩ : MutableGraphView) s =
            some producer := by
          rw [getNode_append, hs]
          rfl
        have hs' : getNode (dependOnNode
            ⟨g.nodes ++ [⟨switchIdentityName s p, "Identity", producer.device,
              [⟨s, p⟩]⟩]⟩ n (switchIdentityName s p)) s =
            some (if producer.name == n
              then { producer with inputs :=
                controlDependOnInputs (switchIdentityName s p) producer }
              else producer) := by
          rw [dependOnNode, getNode_mapNodeInputs, hsG2]
          rfl
        have hsw' : isSwitchOp (if producer.name == n
            then { producer with inputs :=
              controlDependOnInputs (switchIdentityName s p) producer }
            else producer) = true := by
          split
          · exact hsw
          · exact hsw
        have hsingle : findIdentityConsumer
            (⟨[⟨switchIdentityName s p, "Identity", producer.device,
              [⟨s, p⟩]⟩]⟩ : MutableGraphView) ⟨s, p⟩ =
            some (switchIdentityName s p) := by
          simp [findIdentityConsumer, isIdentityOp]
        have hfindG2 : findIdentityConsumer
            (⟨g.nodes ++ [⟨switchIdentityName s p, "Identity",
              producer.device, [⟨s, p⟩]⟩]⟩ : MutableGraphView) ⟨s, p⟩ =
            some (switchIdentityName s p) := by
          rw [findIdentityConsumer_append]
          rw [show findIdentityConsumer (⟨g.nodes⟩ : MutableGraphView)
              (⟨s, p⟩ : TensorId) = none from hfind]
          rw [hsingle]
          rfl
        have hfind' : findIdentityConsumer (dependOnNode
            ⟨g.nodes ++ [⟨switchIdentityName s p, "Identity", producer.device,
              [⟨s, p⟩]⟩]⟩ n (switchIdentityName s p)) ⟨s, p⟩ =
            some (switchIdentityName s p) := by
          rw [findIdentityConsumer_dependOnNode _ n _ ⟨s, p⟩ hctl]
          exact hfindG2
        have hwfG2 : wellFormed
            (⟨g.nodes ++ [⟨switchIdentityName s p, "Identity",
              producer.device, [⟨s, p⟩]⟩]⟩ : MutableGraphView) :=
          wellFormed_append_fresh hw hnone
        have hnoop : dependOnNode (dependOnNode
            ⟨g.nodes ++ [⟨switchIdentityName s p, "Identity", producer.device,
              [⟨s, p⟩]⟩]⟩ n (switchIdentityName s p)) n
            (switchIdentityName s p) =
            dependOnNode
            ⟨g.nodes ++ [⟨switchIdentityName s p, "Identity", producer.device,
              [⟨s, p⟩]⟩]⟩ n (switchIdentityName s p) := by
          apply dependOnNode_noop (wellFormed_mapNodeInputs hwfG2 n _)
          intro m2 hm2'
          have hm2eq : m2 = { m with
              inputs := controlDependOnInputs (switchIdentityName s p) m } :=
            (Option.some.inj
              ((getNode_mapNodeInputs_self hm2).symm.trans hm2')).symm
          rw [hm2eq]
          exact mem_controlDependOnInputs _ m
        exact (addControllingFanin_eval_found (dependOnNode
          ⟨g.nodes ++ [⟨switchIdentityName s p, "Identity", producer.device,
            [⟨s, p⟩]⟩]⟩ n (switchIdentityName s p)) n s p _ _
          hval hctl hex' hs' hsw' hfind' hgenn).trans
          (congrArg Except.ok hnoop)

/-- Witness for C3 on the Scenario B graph: the theorem applied to the
successful call creating `ConstantFoldingCtrl/switch_0`, extracting the
idempotence of the repeated identical call. -/
theorem addControllingFanin_switch_passthrough_witness :
    addControllingFanin
        (dependOnNode
          ⟨scenarioBGraph.nodes ++ [⟨switchIdentityName "switch" 0, "Identity",
            "/device:foo:0", [⟨"switch", 0⟩]⟩]⟩ "a"
          (switchIdentityName "switch" 0)) "a" ⟨"switch", 0⟩ =
      .ok (dependOnNode
        ⟨scenarioBGraph.nodes ++ [⟨switchIdentityName "switch" 0, "Identity",
          "/device:foo:0", [⟨"switch", 0⟩]⟩]⟩ "a"
        (switchIdentityName "switch" 0)) :=
  (addControllingFanin_switch_passthrough scenarioBGraph _ "a" "switch" 0
    ⟨"switch", "Switch", "/device:foo:0", []⟩ (by decide) (by decide)
    (by decide) (by decide) (by decide)).2.2

end GraphSpec
